import Mathlib

/-!
# Verification of the ZoneWise county research agent

Shallow embedding of `src/app/langgraph/county_research_agent.py`: the
three-strategy acquisition pipeline (`mode1_discovery`, `mode2_extraction`,
`mode3_agentql_fallback`), the circuit breaker (`escalate_to_insights`),
the persistence reconciler (`persist_to_supabase`), the single-county
workflow (`CountyResearchAgent.run`) and the batch runner (`run_batch`).

Modelling conventions:
* The backing store (Supabase tables touched by the agent) is an explicit
  `Store` value; REST transport is modelled as reliable, so the
  `except`-branches of the Python code that merely log transport errors are
  not exercised.  Row ids generated by the store are modelled by a counter.
* Every network interaction of a strategy (search, fetch, model call,
  Modal call) is folded into an environment value (`Mode1Outcome`,
  `Mode2Outcome`, `Mode3Outcome`) describing the outcome the outside world
  produced; the strategy functions are deterministic in that environment.
* Python dict lookups with `.get` become `Option` fields; lookups with
  `[...]` that can raise `KeyError`, `.get` on non-dict values that can
  raise `AttributeError`, and iteration/indexing of values of the wrong
  type that can raise `TypeError`, are modelled with `Except PyErr`.
  The extracted payload (arbitrary JSON in the source) is modelled by
  `JsonShape`: a truthy non-object value, or a JSON object whose three
  payload keys each hold an arbitrary value (`JField`) — an array of
  elements that each may or may not be an object (`JItem`), or a
  non-array value carrying its truthiness and `len()`-support.  A raise
  inside `persist_to_supabase` carries the store at the moment of the
  raise, since earlier upserts of the same call have already been sent.
* Wall-clock durations, log output, the `raw_html` scratch field and the
  `current_mode` field (written but never read) are not modelled.
-/

namespace ZoneWise

/-! ## String helpers (Python `lower`, `in`, slug computation) -/

/-- Does the second character list start with the first? -/
def chStarts : List Char → List Char → Bool
  | [], _ => true
  | _ :: _, [] => false
  | a :: as, b :: bs => a == b && chStarts as bs

/-- Does the second character list contain the first as a contiguous run? -/
def chHasSub (n : List Char) : List Char → Bool
  | [] => chStarts n []
  | c :: t => chStarts n (c :: t) || chHasSub n t

/-- ASCII lower-casing of one character (Python `str.lower` on the ASCII
names this pipeline handles). -/
def lowerChar (c : Char) : Char :=
  if decide ('A' ≤ c) && decide (c ≤ 'Z') then Char.ofNat (c.toNat + 32) else c

/-- Case-insensitive substring test: the `county=ilike.%25{county}%25`
filter sent to PostgREST in `persist_to_supabase` / `escalate_to_insights`. -/
def strContainsCI (hay needle : String) : Bool :=
  chHasSub (needle.toList.map lowerChar) (hay.toList.map lowerChar)

/-- Characters kept by `re.sub(r"[^a-z0-9-]", "", ...)`. -/
def slugChar (c : Char) : Bool :=
  (decide ('a' ≤ c) && decide (c ≤ 'z')) ||
    (decide ('0' ≤ c) && decide (c ≤ '9')) || c == '-'

/-- `re.sub(r"[^a-z0-9-]", "", county_name.lower().replace(" ", "-").replace(".", ""))`
from `CountyResearchAgent.run` (the two `replace` patterns are single
characters, so they act character-wise). -/
def slugify (s : String) : String :=
  String.mk
    ((((s.toList.map lowerChar).map (fun c => if c == ' ' then '-' else c)).filter
        (fun c => !(c == '.'))).filter slugChar)

/-- Python string truthiness: a string is truthy iff non-empty. -/
def nonEmptyS (s : String) : Bool := !(s == "")

/-! ## Store rows (the Supabase tables the agent touches) -/

/-- A row of the `jurisdictions` table (projected to the fields the agent
reads or writes). -/
structure JurisdictionRow where
  id : Nat
  name : String
  county : String
  data_completeness : Int
  skill_last_validated : Option String
deriving DecidableEq, Repr

/-- A row of the `zoning_districts` table. -/
structure DistrictRow where
  id : Nat
  jurisdiction_id : Nat
  code : String
  name : String
  category : String
  description : String
deriving DecidableEq, Repr

/-- A row of the `zone_standards` table. -/
structure StandardRow where
  zoning_district_id : Nat
  standard_type : String
  value : Option String
  unit : String
  notes : String
deriving DecidableEq, Repr

/-- A row of the `permitted_uses` table. -/
structure UseRow where
  zoning_district_id : Nat
  use_name : String
  permission_type : String
  use_category : String
deriving DecidableEq, Repr

/-- A row of the `insights` table as written by `escalate_to_insights`
(the `error` field carries the accumulated error list, serialized with
`json.dumps` in the source). -/
structure InsightRow where
  rtype : String
  county : String
  message : String
  error : List String
  action : String
deriving DecidableEq, Repr

/-- The backing store.  `nextId` models the id sequence of
`zoning_districts`. -/
structure Store where
  jurisdictions : List JurisdictionRow
  zoning_districts : List DistrictRow
  zone_standards : List StandardRow
  permitted_uses : List UseRow
  insights : List InsightRow
  nextId : Nat
deriving DecidableEq, Repr

/-! ## Keyed upserts (`SupabaseClient.upsert` with `resolution=merge-duplicates`) -/

/-- A `zoning_districts` record sent by `persist_to_supabase` (no id: the
store assigns one on insert). -/
structure DistrictRec where
  jurisdiction_id : Nat
  code : String
  name : String
  category : String
  description : String
deriving DecidableEq, Repr

/-- Conflict-target match for `on_conflict=jurisdiction_id,code`. -/
def districtKeyMatch (r : DistrictRec) (d : DistrictRow) : Bool :=
  d.jurisdiction_id == r.jurisdiction_id && d.code == r.code

/-- Merge a record into the row with the same natural key (first match),
keeping the stored id. -/
def replaceDistrict (r : DistrictRec) : List DistrictRow → List DistrictRow
  | [] => []
  | d :: t =>
    if districtKeyMatch r d then
      { id := d.id, jurisdiction_id := r.jurisdiction_id, code := r.code,
        name := r.name, category := r.category, description := r.description } :: t
    else d :: replaceDistrict r t

/-- Upsert one district record: merge on key conflict, else insert with a
fresh id. -/
def upsertDistrict1 (s : Store) (r : DistrictRec) : Store :=
  if s.zoning_districts.any (districtKeyMatch r) then
    { s with zoning_districts := replaceDistrict r s.zoning_districts }
  else
    { s with
      zoning_districts := s.zoning_districts ++
        [{ id := s.nextId, jurisdiction_id := r.jurisdiction_id, code := r.code,
           name := r.name, category := r.category, description := r.description }],
      nextId := s.nextId + 1 }

/-- `db.upsert("zoning_districts", records, on_conflict="jurisdiction_id,code")`. -/
def upsertDistricts (s : Store) (rs : List DistrictRec) : Store :=
  rs.foldl upsertDistrict1 s

/-- Merge a record into the first row with the same key (generic keyed
upsert used for `zone_standards` and `permitted_uses`, whose rows carry no
id the agent reads). -/
def replaceByKey {α κ : Type} [DecidableEq κ] (k : α → κ) (r : α) : List α → List α
  | [] => []
  | x :: t => if k x == k r then r :: t else x :: replaceByKey k r t

/-- Keyed upsert of a batch of records into a list of rows. -/
def upsertList {α κ : Type} [DecidableEq κ] (k : α → κ) (l : List α) (rs : List α) : List α :=
  rs.foldl (fun acc r =>
    if acc.any (fun x => k x == k r) then replaceByKey k r acc else acc ++ [r]) l

/-- Conflict target `zoning_district_id,standard_type`. -/
def standardKey (r : StandardRow) : Nat × String :=
  (r.zoning_district_id, r.standard_type)

/-- Conflict target `zoning_district_id,use_name`. -/
def useKey (r : UseRow) : Nat × String :=
  (r.zoning_district_id, r.use_name)

/-- `db.upsert("zone_standards", records, on_conflict="zoning_district_id,standard_type")`. -/
def upsertStandards (s : Store) (rs : List StandardRow) : Store :=
  { s with zone_standards := upsertList standardKey s.zone_standards rs }

/-- `db.upsert("permitted_uses", records, on_conflict="zoning_district_id,use_name")`. -/
def upsertUses (s : Store) (rs : List UseRow) : Store :=
  { s with permitted_uses := upsertList useKey s.permitted_uses rs }

/-! ## Extracted payload -/

/-- One entry of the `districts` array: a JSON object whose fields may be
missing.  `code` is read with `d["code"]` in the source, so a missing
`code` raises `KeyError`. -/
structure DistrictEntry where
  code : Option String
  name : Option String
  category : Option String
  description : Option String
deriving DecidableEq, Repr

/-- One entry of the `standards` array (all fields read with `.get`). -/
structure StandardEntry where
  district_code : Option String
  standard_type : Option String
  value : Option String
  unit : Option String
  notes : Option String
deriving DecidableEq, Repr

/-- One entry of the `uses` array (all fields read with `.get`). -/
structure UseEntry where
  district_code : Option String
  use_name : Option String
  permission_type : Option String
  use_category : Option String
deriving DecidableEq, Repr

/-- One element of a JSON array the source treats as an object: an actual
JSON object (parsed into the field-optional record), or any other JSON
value — on which `d["code"]` raises `TypeError` and `s.get`/`u.get` raise
`AttributeError`. -/
inductive JItem (α : Type) where
  | obj (a : α)
  | nonObj
deriving DecidableEq, Repr

/-- The value found under one of the three payload keys: a JSON array of
items, or any non-array JSON value, carrying its Python truthiness and
whether `len()` is defined on it.  For JSON values `len()` is defined on
exactly the iterable non-arrays (strings and objects; not numbers,
booleans or null), so the flag also decides how a record loop over a
truthy non-array raises: iterating a string/object reaches the
per-element access (`TypeError` at `d["code"]`, `AttributeError` at
`.get`), iterating a number raises `TypeError` at the `for` itself. -/
inductive JField (α : Type) where
  | arr (items : List (JItem α))
  | nonArr (truthy : Bool) (lenDefined : Bool)
deriving DecidableEq, Repr

/-- Python truthiness of a payload field value. -/
def JField.truthy {α : Type} : JField α → Bool
  | .arr items => !items.isEmpty
  | .nonArr t _ => t

/-- Does `len()` succeed on the field value? -/
def JField.lenOk {α : Type} : JField α → Bool
  | .arr _ => true
  | .nonArr _ h => h

/-- The three-key schema of the extraction prompt, as the source actually
receives it: each key holds an arbitrary JSON value.  A JSON object missing
one of the keys behaves like the empty array (`extracted.get(key, [])`). -/
structure Payload where
  districts : JField DistrictEntry
  standards : JField StandardEntry
  uses : JField UseEntry
deriving DecidableEq, Repr

/-- Shape of the value stored in `state["extracted_data"]`: a JSON object,
or a truthy non-object JSON value (e.g. a non-empty array), on which the
source's `.get` calls raise `AttributeError`. -/
inductive JsonShape where
  | dict (p : Payload)
  | nonDict
deriving DecidableEq, Repr

/-- Python exceptions surfacing in the pipeline. -/
inductive PyErr where
  | keyError
  | attributeError
  | typeError
deriving DecidableEq, Repr

/-- `str(e)` for the modelled exceptions. -/
def pyErrName : PyErr → String
  | .keyError => "KeyError"
  | .attributeError => "AttributeError"
  | .typeError => "TypeError"

/-! ## Run state (`CountyResearchState`) -/

/-- The fields of `CountyResearchState` the workflow reads or writes
(besides `raw_html` and `current_mode`, which are write-only). -/
structure RunSt where
  county_name : String
  county_slug : String
  portal_type : String
  anti_scrape : Bool
  rate_limit_rpm : Nat
  municode_url : String
  gis_url : String
  mode_used : Option Nat
  portal_validated : Bool
  extracted_data : Option JsonShape
  errors : List String
  failures : Nat
  districts_upserted : Nat
  standards_upserted : Nat
  uses_upserted : Nat
  escalated : Bool
deriving DecidableEq, Repr

/-- The arguments of `CountyResearchAgent.run`. -/
structure RunArgs where
  county_name : String
  co_no : Nat
  county_slug : String
  portal_type : String
  anti_scrape : Bool
  rate_limit_rpm : Nat
  municode_url : String
  gis_url : String
deriving DecidableEq, Repr

/-- The state initialized at the top of `CountyResearchAgent.run`. -/
def initState (a : RunArgs) : RunSt :=
  { county_name := a.county_name
    county_slug := if a.county_slug == "" then slugify a.county_name else a.county_slug
    portal_type := a.portal_type
    anti_scrape := a.anti_scrape
    rate_limit_rpm := a.rate_limit_rpm
    municode_url := a.municode_url
    gis_url := a.gis_url
    mode_used := none
    portal_validated := false
    extracted_data := none
    errors := []
    failures := 0
    districts_upserted := 0
    standards_upserted := 0
    uses_upserted := 0
    escalated := false }

/-! ## Strategy 1 — `mode1_discovery` -/

/-- Outcome of one search query in the discovery loop: the soft time budget
tripped before the query (`break`), the request raised (caught, recorded as
a warning), or a results page with the Municode-pattern and ArcGIS-pattern
matches found in it. -/
inductive QueryStep where
  | timeUp
  | qerr (msg : String)
  | page (municode : List String) (arcgis : List String)
deriving DecidableEq, Repr

/-- The outcomes of the three fixed queries, in order. -/
structure Mode1Run where
  q1 : QueryStep
  q2 : QueryStep
  q3 : QueryStep
deriving DecidableEq, Repr

/-- The discovery loop: stop at time-up, record per-query errors, stop at
the first query whose page matches Municode (checked first) or ArcGIS.
Returns the found (url, portal kind) and the error tags accumulated. -/
def runQueries : List QueryStep → Option (String × String) × List String
  | [] => (none, [])
  | .timeUp :: _ => (none, [])
  | .qerr m :: rest =>
    let r := runQueries rest
    (r.1, ("mode1_query: " ++ m) :: r.2)
  | .page mm aa :: rest =>
    match mm with
    | u :: _ => (some (u, "municode"), [])
    | [] =>
      match aa with
      | u :: _ => (some (u, "arcgis"), [])
      | [] => runQueries rest

/-- Body of `mode1_discovery`: search, fall back to the caller-supplied
URL, set `portal_validated`, `mode_used`, `municode_url`, `portal_type`. -/
def mode1_discovery (st : RunSt) (r : Mode1Run) : RunSt :=
  let q := runQueries [r.q1, r.q2, r.q3]
  let searchUrl : String := match q.1 with | some ut => ut.1 | none => ""
  let portalT : String := match q.1 with | some ut => ut.2 | none => st.portal_type
  let found_url : String :=
    if nonEmptyS searchUrl then searchUrl
    else if nonEmptyS st.municode_url then st.municode_url
    else st.gis_url
  { st with
    errors := st.errors ++ q.2
    portal_validated := nonEmptyS found_url
    mode_used := some 1
    municode_url :=
      if nonEmptyS found_url && !(nonEmptyS st.municode_url) then found_url
      else st.municode_url
    portal_type := if nonEmptyS portalT then portalT else st.portal_type }

/-- Outcome of the `asyncio.wait_for(mode1_discovery ...)` call in `run`:
overall timeout, an exception, or the body running with the given query
outcomes. -/
inductive Mode1Outcome where
  | timeout
  | exn (msg : String)
  | ran (r : Mode1Run)
deriving DecidableEq, Repr

/-- The Mode 1 stage of `run`, including its timeout/exception handlers. -/
def mode1_step (o : Mode1Outcome) (st : RunSt) : RunSt :=
  match o with
  | .timeout =>
    { st with failures := st.failures + 1, errors := st.errors ++ ["mode1_timeout"] }
  | .exn m =>
    { st with
      failures := st.failures + 1
      errors := st.errors ++ ["mode1_exception: " ++ m] }
  | .ran r => mode1_discovery st r

/-! ## Strategy 2 — `mode2_extraction` -/

/-- Outcome of the body of `mode2_extraction` once a URL is available:
fetch raised, the 88s fetch budget tripped, the model call raised, the
model output failed JSON parsing, or it parsed to the given shape. -/
inductive Mode2Body where
  | fetchFail (msg : String)
  | fetchTimeout
  | claudeFail (msg : String)
  | jsonFail (msg : String)
  | parsed (j : JsonShape)
deriving DecidableEq, Repr

/-- Outcome of the `asyncio.wait_for(mode2_extraction ...)` call. -/
inductive Mode2Outcome where
  | timeout
  | exn (msg : String)
  | completed (b : Mode2Body)
deriving DecidableEq, Repr

/-- Body of `mode2_extraction`.  If no URL is known the strategy records
`mode2_no_url` and returns without touching `mode_used`.  A payload that
parsed to a non-object sets `extracted_data` and then records a
`mode2_claude` error (the `len(extracted.get(...))` log line raises
`AttributeError` inside the same `try`). -/
def mode2_extraction (st : RunSt) (b : Mode2Body) : RunSt :=
  let url := if nonEmptyS st.municode_url then st.municode_url else st.gis_url
  if url == "" then
    { st with errors := st.errors ++ ["mode2_no_url"] }
  else
    match b with
    | .fetchFail m => { st with errors := st.errors ++ ["mode2_fetch: " ++ m] }
    | .fetchTimeout => { st with errors := st.errors ++ ["mode2_timeout_fetch"] }
    | .claudeFail m =>
      { st with errors := st.errors ++ ["mode2_claude: " ++ m], mode_used := some 2 }
    | .jsonFail m =>
      { st with errors := st.errors ++ ["mode2_json: " ++ m], mode_used := some 2 }
    | .parsed j =>
      { st with
        extracted_data := some j
        mode_used := some 2
        errors := st.errors ++
          (match j with
           | .nonDict => ["mode2_claude: AttributeError"]
           | .dict p =>
             if p.districts.lenOk && p.standards.lenOk && p.uses.lenOk then []
             else ["mode2_claude: TypeError"]) }

/-- The Mode 2 stage of `run`, including its timeout/exception handlers. -/
def mode2_step (o : Mode2Outcome) (st : RunSt) : RunSt :=
  match o with
  | .timeout =>
    { st with failures := st.failures + 1, errors := st.errors ++ ["mode2_timeout"] }
  | .exn m =>
    { st with
      failures := st.failures + 1
      errors := st.errors ++ ["mode2_exception: " ++ m] }
  | .completed b => mode2_extraction st b

/-! ## Strategy 3 — `mode3_agentql_fallback` -/

/-- Outcome of the Modal/AgentQL POST: client timeout, non-200 status,
another exception, or a 200 response whose `data` field (default `{}`)
has the given shape. -/
inductive Mode3Body where
  | httpTimeout
  | httpErr (status : Nat) (body : String)
  | reqFail (msg : String)
  | ok (data : JsonShape)
deriving DecidableEq, Repr

/-- Outcome of the `asyncio.wait_for(mode3_agentql_fallback ...)` call. -/
inductive Mode3Outcome where
  | timeout
  | exn (msg : String)
  | completed (b : Mode3Body)
deriving DecidableEq, Repr

/-- Body of `mode3_agentql_fallback`: only a 200 response writes
`extracted_data` (overwriting whatever Strategy 2 left) and sets
`mode_used := 3`. -/
def mode3_agentql_fallback (st : RunSt) (b : Mode3Body) : RunSt :=
  match b with
  | .ok j => { st with extracted_data := some j, mode_used := some 3 }
  | .httpErr status body =>
    { st with errors := st.errors ++
        ["mode3_modal_http_" ++ toString status ++ ": " ++ body] }
  | .httpTimeout => { st with errors := st.errors ++ ["mode3_modal_timeout"] }
  | .reqFail m => { st with errors := st.errors ++ ["mode3_modal: " ++ m] }

/-- The Mode 3 stage of `run`, including its timeout/exception handlers. -/
def mode3_step (o : Mode3Outcome) (st : RunSt) : RunSt :=
  match o with
  | .timeout =>
    { st with failures := st.failures + 1, errors := st.errors ++ ["mode3_timeout"] }
  | .exn m =>
    { st with
      failures := st.failures + 1
      errors := st.errors ++ ["mode3_exception: " ++ m] }
  | .completed b => mode3_agentql_fallback st b

/-! ## Circuit breaker -/

/-- The `has_data` computation in `run`:
`bool(state.get("extracted_data") and (ed.get("districts") or ed.get("standards")))`.
On a truthy non-object value the `.get` raises `AttributeError`, which is
not caught anywhere in `run`. -/
def hasDataCheck : Option JsonShape → Except PyErr Bool
  | none => .ok false
  | some .nonDict => .error .attributeError
  | some (.dict p) => .ok (p.districts.truthy || p.standards.truthy)

/-- The insights row inserted by `escalate_to_insights`. -/
def escalationRow (st : RunSt) : InsightRow :=
  { rtype := "ESCALATE"
    county := st.county_slug
    message := "County Research Agent: All 3 modes failed for " ++ st.county_name ++ " County"
    error := st.errors
    action := "Create Traycer GitHub Issue: [SKILL] Manual review " ++ st.county_name ++ " County portal" }

/-- `escalate_to_insights`: insert one ESCALATE insight, set
`data_completeness = -1` on every jurisdiction matching the county, set
`escalated := true`. -/
def escalate_to_insights (st : RunSt) (s : Store) : RunSt × Store :=
  let s' := { s with
    insights := s.insights ++ [escalationRow st]
    jurisdictions := s.jurisdictions.map (fun j =>
      if strContainsCI j.county st.county_name then { j with data_completeness := -1 }
      else j) }
  ({ st with escalated := true }, s')

/-! ## Persistence reconciler — `persist_to_supabase` -/

/-- The `district_records` list comprehension: raises `TypeError` at a
non-object entry (`d["code"]` on a non-subscriptable or string-keyed
value) and `KeyError` at an object entry without a `code`. -/
def buildDistrictRecords (jid : Nat) :
    List (JItem DistrictEntry) → Except PyErr (List DistrictRec)
  | [] => .ok []
  | .nonObj :: _ => .error .typeError
  | .obj d :: t =>
    match d.code with
    | none => .error .keyError
    | some c =>
      match buildDistrictRecords jid t with
      | .error e => .error e
      | .ok rs =>
        .ok ({ jurisdiction_id := jid, code := c, name := d.name.getD c,
               category := d.category.getD "other",
               description := d.description.getD "" } :: rs)

/-- The re-read of district rows for the jurisdiction, projected to
`(code, id)` pairs in row order. -/
def districtPairs (l : List DistrictRow) (jid : Nat) : List (String × Nat) :=
  (l.filter (fun d => d.jurisdiction_id == jid)).map (fun d => (d.code, d.id))

/-- `district_id_map.get(code)`: a Python dict comprehension keeps the last
binding for a repeated key. -/
def pairsGet (pairs : List (String × Nat)) (c : String) : Option Nat :=
  ((pairs.filter (fun pr => pr.1 == c)).getLast?).map (fun pr => pr.2)

/-- The `standard_records` loop: raises `AttributeError` at a non-object
entry (`s.get` at line 511, outside the upsert `try`), and keeps only
object entries whose `district_code` resolves through the re-read map. -/
def buildStandardRecords (pairs : List (String × Nat)) :
    List (JItem StandardEntry) → Except PyErr (List StandardRow)
  | [] => .ok []
  | .nonObj :: _ => .error .attributeError
  | .obj s :: t =>
    match buildStandardRecords pairs t with
    | .error e => .error e
    | .ok tl =>
      .ok (match pairsGet pairs (s.district_code.getD "") with
           | some did =>
             { zoning_district_id := did, standard_type := s.standard_type.getD "",
               value := s.value, unit := s.unit.getD "",
               notes := s.notes.getD "" } :: tl
           | none => tl)

/-- The `use_records` loop: raises `AttributeError` at a non-object entry
(`u.get` at line 538), and keeps only object entries whose `district_code`
resolves through the re-read map. -/
def buildUseRecords (pairs : List (String × Nat)) :
    List (JItem UseEntry) → Except PyErr (List UseRow)
  | [] => .ok []
  | .nonObj :: _ => .error .attributeError
  | .obj u :: t =>
    match buildUseRecords pairs t with
    | .error e => .error e
    | .ok tl =>
      .ok (match pairsGet pairs (u.district_code.getD "") with
           | some did =>
             { zoning_district_id := did, use_name := u.use_name.getD "",
               permission_type := u.permission_type.getD "permitted",
               use_category := u.use_category.getD "other" } :: tl
           | none => tl)

/-- The district block of `persist_to_supabase`: skipped when the payload
has no districts; otherwise build the records (may raise `KeyError`) and
upsert them, counting the records sent. -/
def districtStage (jid : Nat) (p : Payload) (s : Store) : Except PyErr (Store × Nat) :=
  if p.districts.truthy = false then .ok (s, 0)
  else
    match p.districts with
    | .nonArr _ _ => .error .typeError
    | .arr items =>
      match buildDistrictRecords jid items with
      | .error e => .error e
      | .ok drecs => .ok (upsertDistricts s drecs, drecs.length)

/-- The re-read code→id map of `persist_to_supabase`, built only when the
district upsert reported a positive count. -/
def persistPairs (jid : Nat) (s1 : Store) (dUp : Nat) : List (String × Nat) :=
  if dUp > 0 then districtPairs s1.zoning_districts jid else []

/-- The standards record-building block: skipped (no records) when the
standards value is falsy or the code→id map is empty (the source's
`if standards and district_id_map:` guard); otherwise iterating a truthy
non-array raises `TypeError`, and the element loop builds the resolvable
records or raises. -/
def stdRecsE (pairs : List (String × Nat)) (p : Payload) :
    Except PyErr (List StandardRow) :=
  if p.standards.truthy = false || pairs.isEmpty then .ok []
  else
    match p.standards with
    | .nonArr _ true => .error .attributeError
    | .nonArr _ false => .error .typeError
    | .arr items => buildStandardRecords pairs items

/-- The uses record-building block (same guard and raise behavior). -/
def useRecsE (pairs : List (String × Nat)) (p : Payload) :
    Except PyErr (List UseRow) :=
  if p.uses.truthy = false || pairs.isEmpty then .ok []
  else
    match p.uses with
    | .nonArr _ true => .error .attributeError
    | .nonArr _ false => .error .typeError
    | .arr items => buildUseRecords pairs items

/-- The `standard_records` actually sent on the non-raising paths. -/
def standardRecs (pairs : List (String × Nat)) (p : Payload) : List StandardRow :=
  match stdRecsE pairs p with
  | .ok l => l
  | .error _ => []

/-- The `use_records` actually sent on the non-raising paths. -/
def useRecs (pairs : List (String × Nat)) (p : Payload) : List UseRow :=
  match useRecsE pairs p with
  | .ok l => l
  | .error _ => []

/-- The standards upsert block (`if standard_records: ...`). -/
def stdStage (s1 : Store) (srecs : List StandardRow) : Store × Nat :=
  if srecs.isEmpty then (s1, 0) else (upsertStandards s1 srecs, srecs.length)

/-- The uses upsert block (`if use_records: ...`). -/
def useStage (s2 : Store) (urecs : List UseRow) : Store × Nat :=
  if urecs.isEmpty then (s2, 0) else (upsertUses s2 urecs, urecs.length)

/-- The per-row `skill_last_validated` update. -/
def gStamp (today county : String) (j : JurisdictionRow) : JurisdictionRow :=
  if strContainsCI j.county county then { j with skill_last_validated := some today }
  else j

/-- The final `skill_last_validated` stamp on all matching jurisdictions. -/
def stampJurisdictions (today county : String) (s3 : Store) : Store :=
  { s3 with jurisdictions := s3.jurisdictions.map (gStamp today county) }

/-- The standards/uses/timestamp tail of `persist_to_supabase`.  Record
building can raise on malformed entries; the error carries the store at
the moment of the raise (the districts — and, for a raise in the uses
loop, the standards — have already been written). -/
def persistTail (today : String) (st : RunSt) (jid : Nat) (p : Payload)
    (s1 : Store) (dUp : Nat) : Except (PyErr × Store) (RunSt × Store) :=
  match stdRecsE (persistPairs jid s1 dUp) p with
  | .error e => .error (e, s1)
  | .ok srecs =>
    match useRecsE (persistPairs jid s1 dUp) p with
    | .error e => .error (e, (stdStage s1 srecs).1)
    | .ok urecs =>
      .ok ({ st with
               districts_upserted := dUp
               standards_upserted := (stdStage s1 srecs).2
               uses_upserted := (useStage (stdStage s1 srecs).1 urecs).2 },
           stampJurisdictions today st.county_name
             (useStage (stdStage s1 srecs).1 urecs).1)

/-- `persist_to_supabase`: resolve the jurisdiction by case-insensitive
substring match on `county`, upsert districts, re-read the code→id map,
upsert the resolvable standards and uses, stamp `skill_last_validated`,
and store the three upsert counts.  Transport is modelled as reliable, so
the logged-and-continue error branches for failed writes do not occur. -/
def persist_to_supabase (today : String) (st : RunSt) (s : Store) :
    Except (PyErr × Store) (RunSt × Store) :=
  match st.extracted_data with
  | none => .ok (st, s)
  | some .nonDict => .error (.attributeError, s)
  | some (.dict p) =>
    match s.jurisdictions.filter (fun j => strContainsCI j.county st.county_name) with
    | [] => .ok ({ st with errors := st.errors ++ ["persist_no_jurisdictions"] }, s)
    | j0 :: _ =>
      match districtStage j0.id p s with
      | .error e => .error (e, s)
      | .ok s1d => persistTail today st j0.id p s1d.1 s1d.2

/-! ## The workflow — `CountyResearchAgent.run` -/

/-- External outcomes for one invocation of `run`. -/
structure RunEnv where
  m1 : Mode1Outcome
  m2 : Mode2Outcome
  m3 : Mode3Outcome
  today : String
deriving DecidableEq, Repr

/-- The data contract returned by `run` (elapsed time and completion
timestamp are not modelled). -/
structure RunResult where
  county : String
  co_no : Nat
  districts_upserted : Nat
  standards_upserted : Nat
  uses_upserted : Nat
  mode_used : Nat
  portal_validated : Bool
  errors : List String
  escalated : Bool
deriving DecidableEq, Repr

instance {ε α : Type} [DecidableEq ε] [DecidableEq α] : DecidableEq (Except ε α) := fun a b =>
  match a, b with
  | .ok x, .ok y =>
    if h : x = y then .isTrue (by rw [h]) else .isFalse (by intro hc; cases hc; exact h rfl)
  | .error x, .error y =>
    if h : x = y then .isTrue (by rw [h]) else .isFalse (by intro hc; cases hc; exact h rfl)
  | .ok _, .error _ => .isFalse (by intro hc; cases hc)
  | .error _, .ok _ => .isFalse (by intro hc; cases hc)

/-- What one invocation of `run` produced: the returned result record (or
the exception that escaped to the caller), the store afterwards, and which
of the three tail stages executed. -/
structure RunOut where
  res : Except PyErr RunResult
  store : Store
  mode3Invoked : Bool
  persistInvoked : Bool
  escalateInvoked : Bool
deriving DecidableEq, Repr

/-- The run state after the Mode 1 and Mode 2 stages (these stages do not
touch the store). -/
def afterMode2 (e : RunEnv) (a : RunArgs) : RunSt :=
  mode2_step e.m2 (mode1_step e.m1 (initState a))

/-- The run state after the conditional Mode 3 stage (taking the Mode 3
branch exactly when `run` does). -/
def afterMode3 (e : RunEnv) (a : RunArgs) : RunSt :=
  let st2 := afterMode2 e a
  match hasDataCheck st2.extracted_data with
  | .error _ => st2
  | .ok hd => if !hd || a.anti_scrape then mode3_step e.m3 st2 else st2

/-- The result record assembled at the end of `run`. -/
def mkResult (a : RunArgs) (st : RunSt) : RunResult :=
  { county := a.county_name
    co_no := a.co_no
    districts_upserted := st.districts_upserted
    standards_upserted := st.standards_upserted
    uses_upserted := st.uses_upserted
    mode_used := st.mode_used.getD 0
    portal_validated := st.portal_validated
    errors := st.errors
    escalated := st.escalated }

/-- `CountyResearchAgent.run`: Mode 1, Mode 2, conditional Mode 3
(`not has_data or anti_scrape`), then the circuit-breaker decision between
`escalate_to_insights` and `persist_to_supabase`.  The two `has_data`
evaluations and the reconciler can raise; those exceptions escape `run`. -/
def run (e : RunEnv) (a : RunArgs) (s : Store) : RunOut :=
  match hasDataCheck (afterMode2 e a).extracted_data with
  | .error er => ⟨.error er, s, false, false, false⟩
  | .ok hd =>
    let m3inv := !hd || a.anti_scrape
    let st3 := afterMode3 e a
    match hasDataCheck st3.extracted_data with
    | .error er => ⟨.error er, s, m3inv, false, false⟩
    | .ok fhd =>
      if fhd then
        match persist_to_supabase e.today st3 s with
        | .error es => ⟨.error es.1, es.2, m3inv, true, false⟩
        | .ok pr => ⟨.ok (mkResult a pr.1), pr.2, m3inv, true, false⟩
      else
        let es := escalate_to_insights st3 s
        ⟨.ok (mkResult a es.1), es.2, m3inv, false, true⟩

/-- Flag whether a run result came back normally. -/
def resOk : Except PyErr RunResult → Bool
  | .ok _ => true
  | .error _ => false

/-- The `escalated` flag of a returned result (`false` if `run` raised). -/
def resEscalated : Except PyErr RunResult → Bool
  | .ok r => r.escalated
  | .error _ => false

/-- The `mode_used` field of a returned result (`0` if `run` raised). -/
def resModeUsed : Except PyErr RunResult → Nat
  | .ok r => r.mode_used
  | .error _ => 0

/-! ## Batch runner — `run_batch` -/

/-- One county config dict from the batch list: `county_name` and `co_no`
are read with `[...]` (KeyError if missing), the rest with `.get`. -/
structure CountyConfig where
  county_name : Option String
  co_no : Option Nat
  county_slug : Option String
  portal_type : Option String
  anti_scrape : Option Bool
  rate_limit_rpm : Option Nat
  municode_url : Option String
  gis_url : Option String
deriving DecidableEq, Repr

/-- The keyword arguments `run_one` passes to `agent.run`. -/
def argsOfConfig (c : CountyConfig) (cn : String) (cno : Nat) : RunArgs :=
  { county_name := cn
    co_no := cno
    county_slug := c.county_slug.getD ""
    portal_type := c.portal_type.getD "municode"
    anti_scrape := c.anti_scrape.getD false
    rate_limit_rpm := c.rate_limit_rpm.getD 30
    municode_url := c.municode_url.getD ""
    gis_url := c.gis_url.getD "" }

/-- The structured failure dict `run_batch` builds for a task whose
pipeline raised. -/
structure FailDict where
  county : String
  error : String
  escalated : Bool
  districts_upserted : Nat
  standards_upserted : Nat
  uses_upserted : Nat
deriving DecidableEq, Repr

/-- One entry of the list returned by `run_batch`: either a result record
or a converted-exception failure dict. -/
inductive BatchEntry where
  | res (r : RunResult)
  | failed (f : FailDict)
deriving DecidableEq, Repr

/-- The failure dict for position `i`
(`counties[i].get("county_name", f"county_{i}")`, `escalated` true, all
counts zero). -/
def failEntry (c : CountyConfig) (i : Nat) (msg : String) : BatchEntry :=
  .failed { county := c.county_name.getD ("county_" ++ toString i)
            error := msg
            escalated := true
            districts_upserted := 0
            standards_upserted := 0
            uses_upserted := 0 }

/-- One batch task: read the two required config keys (KeyError if
missing), run the pipeline, convert an escaped exception into the
structured failure dict. -/
def run_one (e : RunEnv) (c : CountyConfig) (i : Nat) (s : Store) : BatchEntry × Store :=
  match c.county_name, c.co_no with
  | some cn, some cno =>
    let out := run e (argsOfConfig c cn cno) s
    match out.res with
    | .ok r => (.res r, out.store)
    | .error er => (failEntry c i (pyErrName er), out.store)
  | _, _ => (failEntry c i "KeyError", s)

/-- `run_batch`: one entry per county, re-associated with its input by
index.  `asyncio.gather(..., return_exceptions=True)` returns results in
task order; store effects are threaded in one schedule of the
bounded-concurrency pool. -/
def run_batch (envf : Nat → RunEnv) : List CountyConfig → Nat → Store →
    List BatchEntry × Store
  | [], _, s => ([], s)
  | c :: rest, i, s =>
    let one := run_one (envf i) c i s
    let restOut := run_batch envf rest (i + 1) one.2
    (one.1 :: restOut.1, restOut.2)

/-! ## Branch lemmas for `run` -/

theorem run_check1_err {e : RunEnv} {a : RunArgs} (s : Store) {er : PyErr}
    (h : hasDataCheck (afterMode2 e a).extracted_data = .error er) :
    run e a s = ⟨.error er, s, false, false, false⟩ := by
  unfold run; rw [h]

theorem run_check2_err {e : RunEnv} {a : RunArgs} (s : Store) {hd : Bool} {er : PyErr}
    (h2 : hasDataCheck (afterMode2 e a).extracted_data = .ok hd)
    (h3 : hasDataCheck (afterMode3 e a).extracted_data = .error er) :
    run e a s = ⟨.error er, s, !hd || a.anti_scrape, false, false⟩ := by
  unfold run; rw [h2]; dsimp only; rw [h3]

theorem run_escalates {e : RunEnv} {a : RunArgs} (s : Store) {hd : Bool}
    (h2 : hasDataCheck (afterMode2 e a).extracted_data = .ok hd)
    (h3 : hasDataCheck (afterMode3 e a).extracted_data = .ok false) :
    run e a s = ⟨.ok (mkResult a (escalate_to_insights (afterMode3 e a) s).1),
                 (escalate_to_insights (afterMode3 e a) s).2,
                 !hd || a.anti_scrape, false, true⟩ := by
  unfold run; rw [h2]; dsimp only; rw [h3]; rfl

theorem run_persists {e : RunEnv} {a : RunArgs} (s : Store) {hd : Bool}
    {pr : RunSt × Store}
    (h2 : hasDataCheck (afterMode2 e a).extracted_data = .ok hd)
    (h3 : hasDataCheck (afterMode3 e a).extracted_data = .ok true)
    (h4 : persist_to_supabase e.today (afterMode3 e a) s = .ok pr) :
    run e a s = ⟨.ok (mkResult a pr.1), pr.2, !hd || a.anti_scrape, true, false⟩ := by
  unfold run; rw [h2]; dsimp only; rw [h3]; dsimp only; rw [h4]; rfl

theorem run_persist_err {e : RunEnv} {a : RunArgs} (s : Store) {hd : Bool}
    {es : PyErr × Store}
    (h2 : hasDataCheck (afterMode2 e a).extracted_data = .ok hd)
    (h3 : hasDataCheck (afterMode3 e a).extracted_data = .ok true)
    (h4 : persist_to_supabase e.today (afterMode3 e a) s = .error es) :
    run e a s = ⟨.error es.1, es.2, !hd || a.anti_scrape, true, false⟩ := by
  unfold run; rw [h2]; dsimp only; rw [h3]; dsimp only; rw [h4]; rfl

/-! ## Field-preservation lemmas for the strategy stages -/

theorem mode1_step_pres (o : Mode1Outcome) (st : RunSt) :
    (mode1_step o st).districts_upserted = st.districts_upserted ∧
    (mode1_step o st).standards_upserted = st.standards_upserted ∧
    (mode1_step o st).uses_upserted = st.uses_upserted ∧
    (mode1_step o st).escalated = st.escalated ∧
    (mode1_step o st).county_name = st.county_name ∧
    (mode1_step o st).county_slug = st.county_slug ∧
    (mode1_step o st).anti_scrape = st.anti_scrape := by
  cases o <;> exact ⟨rfl, rfl, rfl, rfl, rfl, rfl, rfl⟩

theorem mode2_extraction_pres (st : RunSt) (b : Mode2Body) :
    (mode2_extraction st b).districts_upserted = st.districts_upserted ∧
    (mode2_extraction st b).standards_upserted = st.standards_upserted ∧
    (mode2_extraction st b).uses_upserted = st.uses_upserted ∧
    (mode2_extraction st b).escalated = st.escalated ∧
    (mode2_extraction st b).county_name = st.county_name ∧
    (mode2_extraction st b).county_slug = st.county_slug ∧
    (mode2_extraction st b).anti_scrape = st.anti_scrape := by
  cases b <;> unfold mode2_extraction <;> dsimp only <;>
    refine ⟨?_, ?_, ?_, ?_, ?_, ?_, ?_⟩ <;> split <;> split <;> rfl

theorem mode2_step_pres (o : Mode2Outcome) (st : RunSt) :
    (mode2_step o st).districts_upserted = st.districts_upserted ∧
    (mode2_step o st).standards_upserted = st.standards_upserted ∧
    (mode2_step o st).uses_upserted = st.uses_upserted ∧
    (mode2_step o st).escalated = st.escalated ∧
    (mode2_step o st).county_name = st.county_name ∧
    (mode2_step o st).county_slug = st.county_slug ∧
    (mode2_step o st).anti_scrape = st.anti_scrape := by
  cases o with
  | timeout => exact ⟨rfl, rfl, rfl, rfl, rfl, rfl, rfl⟩
  | exn m => exact ⟨rfl, rfl, rfl, rfl, rfl, rfl, rfl⟩
  | completed b => exact mode2_extraction_pres st b

theorem mode3_step_pres (o : Mode3Outcome) (st : RunSt) :
    (mode3_step o st).districts_upserted = st.districts_upserted ∧
    (mode3_step o st).standards_upserted = st.standards_upserted ∧
    (mode3_step o st).uses_upserted = st.uses_upserted ∧
    (mode3_step o st).escalated = st.escalated ∧
    (mode3_step o st).county_name = st.county_name ∧
    (mode3_step o st).county_slug = st.county_slug ∧
    (mode3_step o st).anti_scrape = st.anti_scrape := by
  cases o with
  | timeout => exact ⟨rfl, rfl, rfl, rfl, rfl, rfl, rfl⟩
  | exn m => exact ⟨rfl, rfl, rfl, rfl, rfl, rfl, rfl⟩
  | completed b => cases b <;> exact ⟨rfl, rfl, rfl, rfl, rfl, rfl, rfl⟩

theorem afterMode2_pres (e : RunEnv) (a : RunArgs) :
    (afterMode2 e a).districts_upserted = 0 ∧
    (afterMode2 e a).standards_upserted = 0 ∧
    (afterMode2 e a).uses_upserted = 0 ∧
    (afterMode2 e a).escalated = false ∧
    (afterMode2 e a).county_name = a.county_name ∧
    (afterMode2 e a).county_slug =
      (if a.county_slug == "" then slugify a.county_name else a.county_slug) ∧
    (afterMode2 e a).anti_scrape = a.anti_scrape := by
  unfold afterMode2
  have h1 := mode1_step_pres e.m1 (initState a)
  have h2 := mode2_step_pres e.m2 (mode1_step e.m1 (initState a))
  refine ⟨?_, ?_, ?_, ?_, ?_, ?_, ?_⟩ <;>
    simp_all [initState]

theorem afterMode3_pres (e : RunEnv) (a : RunArgs) :
    (afterMode3 e a).districts_upserted = 0 ∧
    (afterMode3 e a).standards_upserted = 0 ∧
    (afterMode3 e a).uses_upserted = 0 ∧
    (afterMode3 e a).escalated = false ∧
    (afterMode3 e a).county_name = a.county_name ∧
    (afterMode3 e a).county_slug =
      (if a.county_slug == "" then slugify a.county_name else a.county_slug) ∧
    (afterMode3 e a).anti_scrape = a.anti_scrape := by
  have h2 := afterMode2_pres e a
  unfold afterMode3
  dsimp only
  split
  · exact h2
  · split
    · obtain ⟨p1, p2, p3, p4, p5, p6, p7⟩ := mode3_step_pres e.m3 (afterMode2 e a)
      obtain ⟨q1, q2, q3, q4, q5, q6, q7⟩ := h2
      exact ⟨p1.trans q1, p2.trans q2, p3.trans q3, p4.trans q4,
             p5.trans q5, p6.trans q6, p7.trans q7⟩
    · exact h2

/-- A successful `persistTail` only fills in the three upsert counts of the
state; everything else is untouched. -/
theorem persistTail_ok_st {today : String} {st : RunSt} {jid : Nat} {p : Payload}
    {s1 : Store} {dUp : Nat} {pr : RunSt × Store}
    (h : persistTail today st jid p s1 dUp = .ok pr) :
    pr.1.escalated = st.escalated ∧ pr.1.mode_used = st.mode_used := by
  unfold persistTail at h
  split at h
  · simp at h
  · split at h
    · simp at h
    · cases h; exact ⟨rfl, rfl⟩

/-- Whichever `.ok` branch `persist_to_supabase` returns, the `escalated`
flag of the state is untouched. -/
theorem persist_escalated {today : String} {st : RunSt} {s : Store}
    {pr : RunSt × Store} (h : persist_to_supabase today st s = .ok pr) :
    pr.1.escalated = st.escalated := by
  unfold persist_to_supabase at h
  split at h
  · cases h; rfl
  · simp at h
  · split at h
    · cases h; rfl
    · split at h
      · simp at h
      · exact (persistTail_ok_st h).1

/-! ## Concrete fixtures -/

/-- A store holding one Brevard jurisdiction and nothing else. -/
def brevardStore : Store := ⟨[⟨1, "Brevard County", "Brevard", 50, none⟩], [], [], [], [], 100⟩

/-- `run("Brevard", co_no=5, portal_type="municode", anti_scrape=False, ...)`
with a known Municode URL. -/
def brevardArgs : RunArgs :=
  ⟨"Brevard", 5, "", "municode", false, 30, "https://library.municode.com/fl/brevard", ""⟩

/-- Three searches that all return pages without recognizable URLs. -/
def noMatchRun : Mode1Run := ⟨.page [] [], .page [] [], .page [] []⟩

/-- Discovery finds nothing, extraction gets unparseable model output,
the Modal fallback answers HTTP 500. -/
def allFailEnv : RunEnv :=
  ⟨.ran noMatchRun, .completed (.jsonFail "Expecting value"),
   .completed (.httpErr 500 "boom"), "2026-10-12"⟩

/-- The worked example of the spec: one district, one resolvable standard,
one standard whose code resolves to no district, no uses. -/
def happyPayload : Payload :=
  ⟨.arr [.obj ⟨some "R-1", some "Single Family", none, none⟩],
   .arr [.obj ⟨some "R-1", some "setback_front", some "25", some "ft", none⟩,
         .obj ⟨some "ZZZ", some "max_height", some "35", some "ft", none⟩],
   .arr []⟩

/-- Discovery finds nothing (falls back to the known URL), extraction
succeeds with `happyPayload`; Mode 3 would fail but is not triggered. -/
def happyEnv : RunEnv :=
  ⟨.ran noMatchRun, .completed (.parsed (.dict happyPayload)),
   .completed (.httpErr 500 "boom"), "2026-10-12"⟩

/-- A run state carrying a parsed payload (for reconciler-level fixtures). -/
def orphanSt : RunSt :=
  { initState brevardArgs with extracted_data := some (.dict happyPayload) }

/-- A store with no rows at all. -/
def emptyStore : Store := ⟨[], [], [], [], [], 0⟩

/-- The result record of the all-fail run (extracted for the witnesses). -/
def escRunResult : RunResult :=
  match (run allFailEnv brevardArgs brevardStore).res with
  | .ok r => r
  | .error _ => mkResult brevardArgs (initState brevardArgs)

/-! ## C1 — Strategy 3 trigger condition -/

/-- C1: Strategy 3 is invoked iff, after Strategies 1 and 2, the extracted
data contains no district and no standard, or the anti-scrape flag is set;
in particular it is skipped when Strategy 2 yielded a district and the
jurisdiction is not anti-scrape, and always invoked for anti-scrape
jurisdictions. -/
theorem strategy3_trigger_iff (e : RunEnv) (a : RunArgs) (s : Store) (b : Bool)
    (h : hasDataCheck (afterMode2 e a).extracted_data = .ok b) :
    (run e a s).mode3Invoked = (!b || a.anti_scrape) := by
  cases h3 : hasDataCheck (afterMode3 e a).extracted_data with
  | error er => rw [run_check2_err s h h3]
  | ok fhd =>
    cases fhd
    · rw [run_escalates s h h3]
    · cases h4 : persist_to_supabase e.today (afterMode3 e a) s with
      | error er => rw [run_persist_err s h h3 h4]
      | ok pr => rw [run_persists s h h3 h4]

/-- Witness for C1 at a concrete input: Strategy 2 produced no data, the
jurisdiction is not anti-scrape, and Strategy 3 fires. -/
theorem strategy3_trigger_iff_witness :
    hasDataCheck (afterMode2 allFailEnv brevardArgs).extracted_data = .ok false ∧
    (run allFailEnv brevardArgs brevardStore).mode3Invoked =
      (!false || brevardArgs.anti_scrape) :=
  ⟨rfl, strategy3_trigger_iff allFailEnv brevardArgs brevardStore false rfl⟩

/-! ## C2 — total failure escalates -/

/-- C2: when the extracted data still contains zero districts and zero
standards after all strategies, exactly one ESCALATE insights row is
appended, every jurisdiction matching the county gets
`data_completeness = -1`, the result's `escalated` flag is true, and the
persistence reconciler is not executed. -/
theorem total_failure_escalates (e : RunEnv) (a : RunArgs) (s : Store) (b : Bool)
    (h2 : hasDataCheck (afterMode2 e a).extracted_data = .ok b)
    (h3 : hasDataCheck (afterMode3 e a).extracted_data = .ok false) :
    (run e a s).store.insights = s.insights ++ [escalationRow (afterMode3 e a)] ∧
    (∀ j ∈ (run e a s).store.jurisdictions,
       strContainsCI j.county a.county_name = true → j.data_completeness = -1) ∧
    resEscalated (run e a s).res = true ∧
    (run e a s).persistInvoked = false ∧
    (run e a s).escalateInvoked = true := by
  rw [run_escalates s h2 h3]
  obtain ⟨-, -, -, -, p5, -, -⟩ := afterMode3_pres e a
  refine ⟨rfl, ?_, rfl, rfl, rfl⟩
  intro j hj hc
  dsimp only [escalate_to_insights] at hj
  rcases List.mem_map.1 hj with ⟨j0, hm, rfl⟩
  rw [p5] at hc ⊢
  by_cases hcc : strContainsCI j0.county a.county_name = true
  · simp [hcc]
  · simp [hcc] at hc ⊢

/-- Witness for C2 at a concrete input. -/
theorem total_failure_escalates_witness :
    (run allFailEnv brevardArgs brevardStore).store.insights =
      brevardStore.insights ++ [escalationRow (afterMode3 allFailEnv brevardArgs)] ∧
    (∀ j ∈ (run allFailEnv brevardArgs brevardStore).store.jurisdictions,
       strContainsCI j.county brevardArgs.county_name = true →
         j.data_completeness = -1) ∧
    resEscalated (run allFailEnv brevardArgs brevardStore).res = true ∧
    (run allFailEnv brevardArgs brevardStore).persistInvoked = false ∧
    (run allFailEnv brevardArgs brevardStore).escalateInvoked = true :=
  total_failure_escalates allFailEnv brevardArgs brevardStore false rfl rfl

/-! ## C8 — missing jurisdiction stops the reconciler -/

/-- C8: when the case-insensitive substring match finds no jurisdiction
row, the reconciler appends `persist_no_jurisdictions` and returns with the
store untouched and every other state field (in particular the three upsert
counts) unchanged. -/
theorem persist_no_jurisdiction_stops (today : String) (st : RunSt) (s : Store)
    (p : Payload)
    (hx : st.extracted_data = some (.dict p))
    (hj : s.jurisdictions.filter (fun j => strContainsCI j.county st.county_name) = []) :
    persist_to_supabase today st s =
      .ok ({ st with errors := st.errors ++ ["persist_no_jurisdictions"] }, s) := by
  unfold persist_to_supabase
  rw [hx]
  dsimp only
  rw [hj]

/-- Witness for C8: a payload-carrying state against a store with no
jurisdictions. -/
theorem persist_no_jurisdiction_stops_witness :
    orphanSt.extracted_data = some (.dict happyPayload) ∧
    emptyStore.jurisdictions.filter
      (fun j => strContainsCI j.county orphanSt.county_name) = [] ∧
    persist_to_supabase "2026-10-12" orphanSt emptyStore =
      .ok ({ orphanSt with
               errors := orphanSt.errors ++ ["persist_no_jurisdictions"] },
           emptyStore) :=
  ⟨rfl, rfl,
   persist_no_jurisdiction_stops "2026-10-12" orphanSt emptyStore happyPayload rfl rfl⟩

/-! ## C10 — escalation implies zero upsert counts -/

/-- C10: a returned result with `escalated = true` carries zero counts for
districts, standards and uses: the counts are only ever written by the
persistence step, which runs on the other branch. -/
theorem escalated_implies_zero_counts (e : RunEnv) (a : RunArgs) (s : Store)
    (r : RunResult)
    (h : (run e a s).res = .ok r) (hesc : r.escalated = true) :
    r.districts_upserted = 0 ∧ r.standards_upserted = 0 ∧ r.uses_upserted = 0 := by
  obtain ⟨p1, p2, p3, p4, -, -, -⟩ := afterMode3_pres e a
  cases h2 : hasDataCheck (afterMode2 e a).extracted_data with
  | error er => rw [run_check1_err s h2] at h; simp at h
  | ok hd =>
    cases h3 : hasDataCheck (afterMode3 e a).extracted_data with
    | error er => rw [run_check2_err s h2 h3] at h; simp at h
    | ok fhd =>
      cases fhd
      · rw [run_escalates s h2 h3] at h
        dsimp only at h
        injection h with h'
        subst h'
        exact ⟨p1, p2, p3⟩
      · cases h4 : persist_to_supabase e.today (afterMode3 e a) s with
        | error er => rw [run_persist_err s h2 h3 h4] at h; simp at h
        | ok pr =>
          rw [run_persists s h2 h3 h4] at h
          dsimp only at h
          injection h with h'
          subst h'
          have he : pr.1.escalated = true := hesc
          rw [persist_escalated h4, p4] at he
          cases he

/-- Witness for C10: the all-fail run escalates with zero counts. -/
theorem escalated_implies_zero_counts_witness :
    (run allFailEnv brevardArgs brevardStore).res = .ok escRunResult ∧
    escRunResult.escalated = true ∧
    (escRunResult.districts_upserted = 0 ∧ escRunResult.standards_upserted = 0 ∧
       escRunResult.uses_upserted = 0) :=
  ⟨rfl, rfl,
   escalated_implies_zero_counts allFailEnv brevardArgs brevardStore escRunResult rfl rfl⟩

/-! ## C9 — discovery fallback and the validated flag -/

/-- Regex matches are never the empty string (both recognized URL patterns
require a non-empty literal prefix). -/
def stepWF : QueryStep → Bool
  | .page mm aa => mm.all (fun u => nonEmptyS u) && aa.all (fun u => nonEmptyS u)
  | _ => true

/-- All three query outcomes carry only non-empty matches. -/
def mode1WF (r : Mode1Run) : Bool := stepWF r.q1 && stepWF r.q2 && stepWF r.q3

/-- A URL found by the search loop is non-empty (under `stepWF`). -/
theorem runQueries_found_nonempty (steps : List QueryStep)
    (hall : steps.all stepWF = true) :
    ∀ u t, (runQueries steps).1 = some (u, t) → nonEmptyS u = true := by
  induction steps with
  | nil => intro u t h; simp [runQueries] at h
  | cons hd tl ih =>
    rw [List.all_cons, Bool.and_eq_true] at hall
    intro u t h
    cases hd with
    | timeUp => simp [runQueries] at h
    | qerr m =>
      have : (runQueries (.qerr m :: tl)).1 = (runQueries tl).1 := rfl
      rw [this] at h
      exact ih hall.2 u t h
    | page mm aa =>
      cases mm with
      | cons u0 us =>
        have : (runQueries (.page (u0 :: us) aa :: tl)).1 = some (u0, "municode") := rfl
        rw [this] at h
        obtain ⟨h1, -⟩ := Prod.mk.injEq .. ▸ Option.some.injEq .. ▸ h
        subst h1
        have hwf := hall.1
        simp [stepWF] at hwf
        exact hwf.1.1
      | nil =>
        cases aa with
        | cons u0 us =>
          have : (runQueries (.page [] (u0 :: us) :: tl)).1 = some (u0, "arcgis") := rfl
          rw [this] at h
          obtain ⟨h1, -⟩ := Prod.mk.injEq .. ▸ Option.some.injEq .. ▸ h
          subst h1
          have hwf := hall.1
          simp [stepWF] at hwf
          exact hwf.1
        | nil =>
          have : (runQueries (.page [] [] :: tl)).1 = (runQueries tl).1 := rfl
          rw [this] at h
          exact ih hall.2 u t h

/-- C9: if no search query matched, discovery falls back to the
caller-supplied URL (preferring the Municode one), and `portal_validated`
is true iff a URL was found by either path. -/
theorem discovery_fallback_and_validated (st : RunSt) (r : Mode1Run)
    (hwf : mode1WF r = true) :
    (mode1_discovery st r).portal_validated =
      ((runQueries [r.q1, r.q2, r.q3]).1.isSome || nonEmptyS st.municode_url ||
        nonEmptyS st.gis_url) ∧
    ((runQueries [r.q1, r.q2, r.q3]).1 = none →
      (mode1_discovery st r).municode_url =
        (if nonEmptyS st.municode_url then st.municode_url else st.gis_url)) := by
  have hall : [r.q1, r.q2, r.q3].all stepWF = true := by
    unfold mode1WF at hwf
    simp only [Bool.and_eq_true] at hwf
    simp [hwf.1.1, hwf.1.2, hwf.2]
  unfold mode1_discovery
  dsimp only
  cases hq : (runQueries [r.q1, r.q2, r.q3]).1 with
  | none =>
    dsimp only
    constructor
    · cases hm : nonEmptyS st.municode_url <;> cases hg : nonEmptyS st.gis_url <;>
        simp [nonEmptyS] at hm hg <;> simp [nonEmptyS, hm, hg]
    · intro _
      cases hm : nonEmptyS st.municode_url <;> cases hg : nonEmptyS st.gis_url <;>
        simp [nonEmptyS] at hm hg <;> simp [nonEmptyS, hm, hg]
  | some ut =>
    have hne : nonEmptyS ut.1 = true :=
      runQueries_found_nonempty [r.q1, r.q2, r.q3] hall ut.1 ut.2 (by rw [hq])
    dsimp only
    rw [hne]
    constructor
    · simp [hne]
    · intro hc; cases hc

/-- Witness for C9: no query matches, the caller supplied a Municode URL,
and the flag comes out true. -/
theorem discovery_fallback_and_validated_witness :
    mode1WF noMatchRun = true ∧
    ((mode1_discovery (initState brevardArgs) noMatchRun).portal_validated =
       ((runQueries [noMatchRun.q1, noMatchRun.q2, noMatchRun.q3]).1.isSome ||
         nonEmptyS (initState brevardArgs).municode_url ||
         nonEmptyS (initState brevardArgs).gis_url) ∧
     ((runQueries [noMatchRun.q1, noMatchRun.q2, noMatchRun.q3]).1 = none →
       (mode1_discovery (initState brevardArgs) noMatchRun).municode_url =
         (if nonEmptyS (initState brevardArgs).municode_url then
            (initState brevardArgs).municode_url
          else (initState brevardArgs).gis_url))) :=
  ⟨rfl, discovery_fallback_and_validated (initState brevardArgs) noMatchRun rfl⟩

/-! ## C3 — run can raise on malformed payloads (corrected) -/

theorem mode2_step_extracted_noURL (o : Mode2Outcome) (st : RunSt)
    (h : (if nonEmptyS st.municode_url then st.municode_url else st.gis_url) == "") :
    (mode2_step o st).extracted_data = st.extracted_data := by
  cases o with
  | timeout => rfl
  | exn m => rfl
  | completed b =>
    cases b <;> unfold mode2_step mode2_extraction <;> dsimp only <;> rw [if_pos h]

/-- The reviewer-style payload `{"districts":[{"code":"R-1"}],"standards":[5]}`:
the district is upserted first, then `s.get` on the non-object standards
entry (line 511, outside every `try`) raises `AttributeError` out of `run`,
with the district row already written to the store. -/
def nonObjStandardPayload : Payload :=
  ⟨.arr [.obj ⟨some "R-1", none, none, none⟩], .arr [.nonObj], .arr []⟩

/-- Environment delivering the non-object-standard payload from Strategy 2. -/
def nonObjStandardEnv : RunEnv :=
  ⟨.ran noMatchRun, .completed (.parsed (.dict nonObjStandardPayload)),
   .completed (.httpErr 500 "boom"), "2026-10-12"⟩

theorem run_raises_on_nonobj_standard :
    (run nonObjStandardEnv brevardArgs brevardStore).res = .error .attributeError ∧
    (run nonObjStandardEnv brevardArgs brevardStore).store.zoning_districts.length = 1 := by
  decide

/-- Did the discovery body run (it sets `mode_used := 1` unconditionally)? -/
def mode1Completed (e : RunEnv) : Bool :=
  match e.m1 with | .ran _ => true | _ => false

/-- Did extraction get past the fetch stage (a URL was available and the
outcome was a model call or parse, successful or not)?  Exactly these paths
set `mode_used := 2`. -/
def mode2PastFetch (e : RunEnv) (a : RunArgs) : Bool :=
  let st1 := mode1_step e.m1 (initState a)
  (nonEmptyS st1.municode_url || nonEmptyS st1.gis_url) &&
    (match e.m2 with
     | .completed (.claudeFail _) => true
     | .completed (.jsonFail _) => true
     | .completed (.parsed _) => true
     | _ => false)

/-- Was Mode 3 triggered and did its Modal call return HTTP 200 (the only
path that sets `mode_used := 3`)? -/
def mode3Applied (e : RunEnv) (a : RunArgs) : Bool :=
  match hasDataCheck (afterMode2 e a).extracted_data with
  | .error _ => false
  | .ok hd =>
    (!hd || a.anti_scrape) &&
      (match e.m3 with | .completed (.ok _) => true | _ => false)

/-- The stage marker `mode_used` actually denotes: the last strategy that
reached its completion point, not the strategy that supplied persisted
data. -/
def modeUsedSpec (e : RunEnv) (a : RunArgs) : Nat :=
  if mode3Applied e a then 3
  else if mode2PastFetch e a then 2
  else if mode1Completed e then 1
  else 0

theorem mode1_step_mode_used (o : Mode1Outcome) (st : RunSt) :
    (mode1_step o st).mode_used =
      (if (match o with | .ran _ => true | _ => false) then some 1 else st.mode_used) := by
  cases o <;> rfl

theorem mode2_step_mode_used (o : Mode2Outcome) (st : RunSt) :
    (mode2_step o st).mode_used =
      (if (nonEmptyS st.municode_url || nonEmptyS st.gis_url) &&
            (match o with
             | .completed (.claudeFail _) => true
             | .completed (.jsonFail _) => true
             | .completed (.parsed _) => true
             | _ => false)
       then some 2 else st.mode_used) := by
  cases o with
  | timeout => simp [mode2_step]
  | exn m => simp [mode2_step]
  | completed b =>
    unfold mode2_step mode2_extraction
    dsimp only
    cases b <;>
      cases hm : nonEmptyS st.municode_url <;>
        cases hg : nonEmptyS st.gis_url <;>
          simp [nonEmptyS] at hm hg <;> simp [nonEmptyS, hm, hg]

theorem mode3_step_mode_used (o : Mode3Outcome) (st : RunSt) :
    (mode3_step o st).mode_used =
      (if (match o with | .completed (.ok _) => true | _ => false)
       then some 3 else st.mode_used) := by
  cases o with
  | timeout => rfl
  | exn m => rfl
  | completed b => cases b <;> rfl

theorem afterMode2_mode_used (e : RunEnv) (a : RunArgs) :
    (afterMode2 e a).mode_used =
      (if mode2PastFetch e a then some 2
       else if mode1Completed e then some 1 else none) := by
  unfold afterMode2 mode2PastFetch mode1Completed
  rw [mode2_step_mode_used, mode1_step_mode_used]
  dsimp only
  cases e.m1 <;> cases e.m2 <;> simp [initState]

theorem afterMode3_eq_err (e : RunEnv) (a : RunArgs) (er : PyErr)
    (hc : hasDataCheck (afterMode2 e a).extracted_data = .error er) :
    afterMode3 e a = afterMode2 e a := by
  unfold afterMode3
  dsimp only
  rw [hc]

theorem afterMode3_eq_ok (e : RunEnv) (a : RunArgs) (hd : Bool)
    (hc : hasDataCheck (afterMode2 e a).extracted_data = .ok hd) :
    afterMode3 e a =
      (if (!hd || a.anti_scrape) = true then mode3_step e.m3 (afterMode2 e a)
       else afterMode2 e a) := by
  unfold afterMode3
  dsimp only
  rw [hc]

theorem mode3Applied_err (e : RunEnv) (a : RunArgs) (er : PyErr)
    (hc : hasDataCheck (afterMode2 e a).extracted_data = .error er) :
    mode3Applied e a = false := by
  unfold mode3Applied
  rw [hc]

theorem mode3Applied_ok (e : RunEnv) (a : RunArgs) (hd : Bool)
    (hc : hasDataCheck (afterMode2 e a).extracted_data = .ok hd) :
    mode3Applied e a =
      ((!hd || a.anti_scrape) &&
        (match e.m3 with | .completed (.ok _) => true | _ => false)) := by
  unfold mode3Applied
  rw [hc]

theorem afterMode3_mode_used (e : RunEnv) (a : RunArgs) :
    (afterMode3 e a).mode_used =
      (if mode3Applied e a then some 3
       else if mode2PastFetch e a then some 2
       else if mode1Completed e then some 1 else none) := by
  have h2 := afterMode2_mode_used e a
  cases hc : hasDataCheck (afterMode2 e a).extracted_data with
  | error er =>
    rw [afterMode3_eq_err e a er hc, mode3Applied_err e a er hc]
    simpa using h2
  | ok hd =>
    rw [afterMode3_eq_ok e a hd hc, mode3Applied_ok e a hd hc]
    by_cases hcond : (!hd || a.anti_scrape) = true
    · rw [if_pos hcond, mode3_step_mode_used, hcond]
      cases hok : (match e.m3 with | .completed (.ok _) => true | _ => false) <;>
        simp [hok, h2]
    · have hcf : (!hd || a.anti_scrape) = false := by
        cases hv : (!hd || a.anti_scrape)
        · rfl
        · exact absurd hv hcond
      rw [if_neg hcond, hcf]
      simpa using h2

/-- `persist_to_supabase` never changes `mode_used`. -/
theorem persist_mode_used {today : String} {st : RunSt} {s : Store}
    {pr : RunSt × Store} (h : persist_to_supabase today st s = .ok pr) :
    pr.1.mode_used = st.mode_used := by
  unfold persist_to_supabase at h
  split at h
  · cases h; rfl
  · simp at h
  · split at h
    · cases h; rfl
    · split at h
      · simp at h
      · exact (persistTail_ok_st h).2

/-- C7 counterexample: in the all-fail run no strategy ever supplied data
(the result escalates with zero counts), yet `mode_used` is 2, not the
claimed 0/none. -/
theorem mode_used_not_data_source :
    resModeUsed (run allFailEnv brevardArgs brevardStore).res = 2 ∧
    resEscalated (run allFailEnv brevardArgs brevardStore).res = true := by decide

/-- C7 (amended): `mode_used` records the last strategy that reached its
completion marker — 3 iff the triggered Modal fallback returned success,
else 2 iff extraction got past its fetch (even when parsing failed and no
data was supplied), else 1 iff discovery ran, else 0.  It does not identify
the strategy that supplied the persisted data. -/
theorem mode_used_records_last_stage (e : RunEnv) (a : RunArgs) (s : Store)
    (r : RunResult) (h : (run e a s).res = .ok r) :
    r.mode_used = modeUsedSpec e a := by
  have hmu : r.mode_used = (afterMode3 e a).mode_used.getD 0 := by
    cases h2 : hasDataCheck (afterMode2 e a).extracted_data with
    | error er => rw [run_check1_err s h2] at h; simp at h
    | ok hd =>
      cases h3 : hasDataCheck (afterMode3 e a).extracted_data with
      | error er => rw [run_check2_err s h2 h3] at h; simp at h
      | ok fhd =>
        cases fhd
        · rw [run_escalates s h2 h3] at h
          dsimp only at h
          injection h with h'
          subst h'
          rfl
        · cases h4 : persist_to_supabase e.today (afterMode3 e a) s with
          | error er => rw [run_persist_err s h2 h3 h4] at h; simp at h
          | ok pr =>
            rw [run_persists s h2 h3 h4] at h
            dsimp only at h
            injection h with h'
            subst h'
            show pr.1.mode_used.getD 0 = _
            rw [persist_mode_used h4]
  rw [hmu, afterMode3_mode_used]
  unfold modeUsedSpec
  cases mode3Applied e a <;> cases mode2PastFetch e a <;> cases mode1Completed e <;> simp

/-- The result record of the all-fail run (extracted for the C7 witness). -/
def allFailResult : RunResult :=
  match (run allFailEnv brevardArgs brevardStore).res with
  | .ok r => r
  | .error _ => mkResult brevardArgs (initState brevardArgs)

/-- Witness for the amended C7 at a concrete input. -/
theorem mode_used_records_last_stage_witness :
    (run allFailEnv brevardArgs brevardStore).res = .ok allFailResult ∧
    allFailResult.mode_used = modeUsedSpec allFailEnv brevardArgs :=
  ⟨rfl, mode_used_records_last_stage allFailEnv brevardArgs brevardStore allFailResult rfl⟩

/-! ## C6 — batch isolation -/

/-- Any failure entry a batch task produces carries `escalated = true` and
zero counts. -/
theorem run_one_failed (e : RunEnv) (c : CountyConfig) (i : Nat) (s : Store)
    (f : FailDict) (h : (run_one e c i s).1 = .failed f) :
    f.escalated = true ∧ f.districts_upserted = 0 ∧ f.standards_upserted = 0 ∧
      f.uses_upserted = 0 := by
  unfold run_one at h
  split at h
  · dsimp only at h
    split at h
    · simp at h
    · unfold failEntry at h
      dsimp only at h
      injection h with h'
      subst h'
      exact ⟨rfl, rfl, rfl, rfl⟩
  · unfold failEntry at h
    dsimp only at h
    injection h with h'
    subst h'
    exact ⟨rfl, rfl, rfl, rfl⟩

/-- C6: the batch runner returns exactly one entry per input county, in
input order; a task whose pipeline raised is converted into a structured
failure entry (escalated, zero counts) for that county alone, and every
position's entry is the converted outcome of running that position's own
county config. -/
theorem batch_one_entry_per_county (envf : Nat → RunEnv) (cs : List CountyConfig)
    (i : Nat) (s : Store) :
    (run_batch envf cs i s).1.length = cs.length ∧
    (∀ entry ∈ (run_batch envf cs i s).1, ∀ f, entry = .failed f →
       f.escalated = true ∧ f.districts_upserted = 0 ∧ f.standards_upserted = 0 ∧
         f.uses_upserted = 0) ∧
    (∀ j (hj : j < cs.length), ∃ sj,
       (run_batch envf cs i s).1[j]? =
         some ((run_one (envf (i + j)) cs[j] (i + j) sj).1)) := by
  induction cs generalizing i s with
  | nil =>
    refine ⟨rfl, ?_, ?_⟩
    · intro entry h
      simp [run_batch] at h
    · intro j hj
      simp at hj
  | cons c rest ih =>
    obtain ⟨ihlen, ihfail, ihidx⟩ := ih (i + 1) (run_one (envf i) c i s).2
    refine ⟨?_, ?_, ?_⟩
    · simp [run_batch, ihlen]
    · intro entry hmem f hf
      rw [show run_batch envf (c :: rest) i s =
            ((run_one (envf i) c i s).1 ::
               (run_batch envf rest (i + 1) (run_one (envf i) c i s).2).1,
             (run_batch envf rest (i + 1) (run_one (envf i) c i s).2).2) from rfl] at hmem
      rcases List.mem_cons.1 hmem with hhead | htail
      · subst hhead
        exact run_one_failed (envf i) c i s f hf
      · exact ihfail entry htail f hf
    · intro j hj
      cases j with
      | zero =>
        exact ⟨s, by simp [run_batch]⟩
      | succ j' =>
        have hj' : j' < rest.length := by simpa using Nat.lt_of_succ_lt_succ hj
        obtain ⟨sj, hsj⟩ := ihidx j' hj'
        refine ⟨sj, ?_⟩
        rw [show run_batch envf (c :: rest) i s =
              ((run_one (envf i) c i s).1 ::
                 (run_batch envf rest (i + 1) (run_one (envf i) c i s).2).1,
               (run_batch envf rest (i + 1) (run_one (envf i) c i s).2).2) from rfl]
        have harith : i + (j' + 1) = (i + 1) + j' := by omega
        simpa [harith] using hsj

/-- A second county config whose required `co_no` key is missing: its task
raises `KeyError` inside `run_one`. -/
def brokenConfig : CountyConfig :=
  ⟨some "Broken", none, none, none, none, none, none, none⟩

/-- A well-formed county config for the batch fixture. -/
def brevardConfig : CountyConfig :=
  ⟨some "Brevard", some 5, none, some "municode", some false, some 30,
   some "https://library.municode.com/fl/brevard", none⟩

/-- The batch fixture: Brevard succeeds, the second config raises. -/
def batchConfigs : List CountyConfig := [brevardConfig, brokenConfig]

/-- Witness for C6: a two-county batch where the second county's task
raises; the theorem applies and the failing position's entry is the
structured failure dict. -/
theorem batch_one_entry_per_county_witness :
    ((run_batch (fun _ => happyEnv) batchConfigs 0 brevardStore).1.length =
       batchConfigs.length) ∧
    (∃ sj, (run_batch (fun _ => happyEnv) batchConfigs 0 brevardStore).1[1]? =
       some ((run_one ((fun (_ : Nat) => happyEnv) (0 + 1)) batchConfigs[1] (0 + 1) sj).1)) ∧
    (run_batch (fun _ => happyEnv) batchConfigs 0 brevardStore).1[1]? =
      some (failEntry brokenConfig 1 "KeyError") := by
  have h := batch_one_entry_per_county (fun _ => happyEnv) batchConfigs 0 brevardStore
  exact ⟨h.1, h.2.2 1 (by decide), by decide⟩

/-! ## C4 — referential integrity of the reconciler -/

theorem mem_replaceByKey {α κ : Type} [DecidableEq κ] (k : α → κ) (r : α)
    (l : List α) (x : α) (h : x ∈ replaceByKey k r l) : x = r ∨ x ∈ l := by
  induction l with
  | nil => simp [replaceByKey] at h
  | cons y t ih =>
    unfold replaceByKey at h
    split at h
    · rcases List.mem_cons.1 h with h1 | h1
      · exact Or.inl h1
      · exact Or.inr (List.mem_cons_of_mem y h1)
    · rcases List.mem_cons.1 h with h1 | h1
      · exact Or.inr (h1 ▸ List.mem_cons_self y t)
      · rcases ih h1 with h2 | h2
        · exact Or.inl h2
        · exact Or.inr (List.mem_cons_of_mem y h2)

theorem mem_upsertList {α κ : Type} [DecidableEq κ] (k : α → κ) (l rs : List α)
    (x : α) (h : x ∈ upsertList k l rs) : x ∈ l ∨ x ∈ rs := by
  induction rs generalizing l with
  | nil => exact Or.inl h
  | cons r t ih =>
    unfold upsertList at h
    rw [List.foldl_cons] at h
    rcases ih _ h with h1 | h1
    · by_cases hc : (l.any fun y => k y == k r) = true
      · rw [if_pos hc] at h1
        rcases mem_replaceByKey k r l x h1 with h2 | h2
        · exact Or.inr (h2 ▸ List.mem_cons_self r t)
        · exact Or.inl h2
      · rw [if_neg hc] at h1
        rcases List.mem_append.1 h1 with h2 | h2
        · exact Or.inl h2
        · simp at h2
          exact Or.inr (h2 ▸ List.mem_cons_self r t)
    · exact Or.inr (List.mem_cons_of_mem r h1)

theorem upsertDistrict1_other (s : Store) (r : DistrictRec) :
    (upsertDistrict1 s r).zone_standards = s.zone_standards ∧
    (upsertDistrict1 s r).permitted_uses = s.permitted_uses ∧
    (upsertDistrict1 s r).jurisdictions = s.jurisdictions ∧
    (upsertDistrict1 s r).insights = s.insights := by
  unfold upsertDistrict1
  split <;> exact ⟨rfl, rfl, rfl, rfl⟩

theorem upsertDistricts_other (s : Store) (rs : List DistrictRec) :
    (upsertDistricts s rs).zone_standards = s.zone_standards ∧
    (upsertDistricts s rs).permitted_uses = s.permitted_uses ∧
    (upsertDistricts s rs).jurisdictions = s.jurisdictions ∧
    (upsertDistricts s rs).insights = s.insights := by
  induction rs generalizing s with
  | nil => exact ⟨rfl, rfl, rfl, rfl⟩
  | cons r t ih =>
    unfold upsertDistricts at ih ⊢
    rw [List.foldl_cons]
    obtain ⟨a1, a2, a3, a4⟩ := upsertDistrict1_other s r
    obtain ⟨b1, b2, b3, b4⟩ := ih (upsertDistrict1 s r)
    exact ⟨b1.trans a1, b2.trans a2, b3.trans a3, b4.trans a4⟩

theorem districtStage_other (jid : Nat) (p : Payload) (s : Store)
    (s1d : Store × Nat) (h : districtStage jid p s = .ok s1d) :
    s1d.1.zone_standards = s.zone_standards ∧
    s1d.1.permitted_uses = s.permitted_uses ∧
    s1d.1.jurisdictions = s.jurisdictions ∧
    s1d.1.insights = s.insights := by
  unfold districtStage at h
  split at h
  · cases h
    exact ⟨rfl, rfl, rfl, rfl⟩
  · split at h
    · simp at h
    · split at h
      · simp at h
      · cases h
        exact upsertDistricts_other s _

theorem persistTail_districts {today : String} {st : RunSt} {jid : Nat}
    {p : Payload} {s1 : Store} {dUp : Nat} {pr : RunSt × Store}
    (h : persistTail today st jid p s1 dUp = .ok pr) :
    pr.2.zoning_districts = s1.zoning_districts := by
  unfold persistTail at h
  split at h
  · simp at h
  · split at h
    · simp at h
    · cases h
      unfold stampJurisdictions useStage stdStage
      dsimp only
      split <;> split <;> rfl

theorem persistTail_standards_mem {today : String} {st : RunSt} {jid : Nat}
    {p : Payload} {s1 : Store} {dUp : Nat} {pr : RunSt × Store}
    (h : persistTail today st jid p s1 dUp = .ok pr) (row : StandardRow)
    (hrow : row ∈ pr.2.zone_standards) :
    row ∈ s1.zone_standards ∨ row ∈ standardRecs (persistPairs jid s1 dUp) p := by
  unfold persistTail at h
  split at h
  · simp at h
  · rename_i srecs hs
    split at h
    · simp at h
    · cases h
      have hsr : standardRecs (persistPairs jid s1 dUp) p = srecs := by
        unfold standardRecs; rw [hs]
      rw [hsr]
      have hrow' : row ∈ (useStage (stdStage s1 srecs).1 _).1.zone_standards := hrow
      unfold useStage stdStage at hrow'
      split at hrow' <;> split at hrow' <;>
        first
          | exact Or.inl hrow'
          | exact (mem_upsertList standardKey _ _ row hrow').imp_left id

theorem persistTail_uses_mem {today : String} {st : RunSt} {jid : Nat}
    {p : Payload} {s1 : Store} {dUp : Nat} {pr : RunSt × Store}
    (h : persistTail today st jid p s1 dUp = .ok pr) (row : UseRow)
    (hrow : row ∈ pr.2.permitted_uses) :
    row ∈ s1.permitted_uses ∨ row ∈ useRecs (persistPairs jid s1 dUp) p := by
  unfold persistTail at h
  split at h
  · simp at h
  · split at h
    · simp at h
    · rename_i urecs hu
      cases h
      have hur : useRecs (persistPairs jid s1 dUp) p = urecs := by
        unfold useRecs; rw [hu]
      rw [hur]
      have hrow' : row ∈ (useStage (stdStage s1 _).1 urecs).1.permitted_uses := hrow
      unfold useStage stdStage at hrow'
      split at hrow' <;> split at hrow' <;>
        first
          | exact Or.inl hrow'
          | exact (mem_upsertList useKey _ _ row hrow').imp_left id

theorem persistTail_counts {today : String} {st : RunSt} {jid : Nat}
    {p : Payload} {s1 : Store} {dUp : Nat} {pr : RunSt × Store}
    (h : persistTail today st jid p s1 dUp = .ok pr) :
    pr.1.standards_upserted = (standardRecs (persistPairs jid s1 dUp) p).length ∧
    pr.1.uses_upserted = (useRecs (persistPairs jid s1 dUp) p).length := by
  unfold persistTail at h
  split at h
  · simp at h
  · rename_i srecs hs
    split at h
    · simp at h
    · rename_i urecs hu
      cases h
      have hsr : standardRecs (persistPairs jid s1 dUp) p = srecs := by
        unfold standardRecs; rw [hs]
      have hur : useRecs (persistPairs jid s1 dUp) p = urecs := by
        unfold useRecs; rw [hu]
      rw [hsr, hur]
      constructor
      · unfold stdStage
        split
        · rename_i hemp
          simp [List.isEmpty_iff_length_eq_zero.1 hemp]
        · rfl
      · unfold useStage
        split
        · rename_i hemp
          simp [List.isEmpty_iff_length_eq_zero.1 hemp]
        · rfl

theorem pairsGet_resolves (l : List DistrictRow) (jid : Nat) (c : String)
    (did : Nat) (h : pairsGet (districtPairs l jid) c = some did) :
    ∃ d ∈ l, d.id = did ∧ d.jurisdiction_id = jid := by
  unfold pairsGet at h
  rcases Option.map_eq_some'.1 h with ⟨pr, hlast, hdid⟩
  have hmem : pr ∈ districtPairs l jid :=
    (List.mem_filter.1 (List.mem_of_mem_getLast? hlast)).1
  unfold districtPairs at hmem
  rcases List.mem_map.1 hmem with ⟨d, hdmem, hpr⟩
  obtain ⟨hdl, hjid⟩ := List.mem_filter.1 hdmem
  refine ⟨d, hdl, ?_, by simpa using hjid⟩
  rw [← hdid, ← hpr]

theorem persistPairs_resolves (jid : Nat) (s1 : Store) (dUp : Nat) (c : String)
    (did : Nat) (h : pairsGet (persistPairs jid s1 dUp) c = some did) :
    ∃ d ∈ s1.zoning_districts, d.id = did ∧ d.jurisdiction_id = jid := by
  unfold persistPairs at h
  split at h
  · exact pairsGet_resolves s1.zoning_districts jid c did h
  · simp [pairsGet] at h

theorem buildStandardRecords_mem (pairs : List (String × Nat))
    (ss : List (JItem StandardEntry)) (l : List StandardRow)
    (hl : buildStandardRecords pairs ss = .ok l) (row : StandardRow)
    (h : row ∈ l) :
    ∃ c, pairsGet pairs c = some row.zoning_district_id := by
  induction ss generalizing l with
  | nil => cases hl; simp at h
  | cons x t ih =>
    cases x with
    | nonObj => simp [buildStandardRecords] at hl
    | obj x =>
      unfold buildStandardRecords at hl
      cases htl : buildStandardRecords pairs t with
      | error e => rw [htl] at hl; simp at hl
      | ok tl =>
        rw [htl] at hl
        dsimp only at hl
        cases hget : pairsGet pairs (x.district_code.getD "") with
        | none =>
          rw [hget] at hl
          cases hl
          exact ih tl htl h
        | some did =>
          rw [hget] at hl
          cases hl
          rcases List.mem_cons.1 h with hr | hr
          · exact ⟨x.district_code.getD "", by rw [hr]; exact hget⟩
          · exact ih tl htl hr

theorem buildUseRecords_mem (pairs : List (String × Nat))
    (us : List (JItem UseEntry)) (l : List UseRow)
    (hl : buildUseRecords pairs us = .ok l) (row : UseRow)
    (h : row ∈ l) :
    ∃ c, pairsGet pairs c = some row.zoning_district_id := by
  induction us generalizing l with
  | nil => cases hl; simp at h
  | cons x t ih =>
    cases x with
    | nonObj => simp [buildUseRecords] at hl
    | obj x =>
      unfold buildUseRecords at hl
      cases htl : buildUseRecords pairs t with
      | error e => rw [htl] at hl; simp at hl
      | ok tl =>
        rw [htl] at hl
        dsimp only at hl
        cases hget : pairsGet pairs (x.district_code.getD "") with
        | none =>
          rw [hget] at hl
          cases hl
          exact ih tl htl h
        | some did =>
          rw [hget] at hl
          cases hl
          rcases List.mem_cons.1 h with hr | hr
          · exact ⟨x.district_code.getD "", by rw [hr]; exact hget⟩
          · exact ih tl htl hr

theorem standardRecs_mem (pairs : List (String × Nat)) (p : Payload)
    (row : StandardRow) (h : row ∈ standardRecs pairs p) :
    ∃ c, pairsGet pairs c = some row.zoning_district_id := by
  unfold standardRecs at h
  split at h
  · rename_i l hs
    unfold stdRecsE at hs
    split at hs
    · cases hs; simp at h
    · split at hs
      · simp at hs
      · simp at hs
      · exact buildStandardRecords_mem pairs _ l hs row h
  · simp at h

theorem useRecs_mem (pairs : List (String × Nat)) (p : Payload)
    (row : UseRow) (h : row ∈ useRecs pairs p) :
    ∃ c, pairsGet pairs c = some row.zoning_district_id := by
  unfold useRecs at h
  split at h
  · rename_i l hs
    unfold useRecsE at hs
    split at hs
    · cases hs; simp at h
    · split at hs
      · simp at hs
      · simp at hs
      · exact buildUseRecords_mem pairs _ l hs row h
  · simp at h

/-- C4: the reconciler never writes a Standard or PermittedUse row whose
`district_code` does not resolve, via the re-read code→id map, to a
District row of the resolved jurisdiction: every standard/use row after the
run is either pre-existing or references a district row of the resolved
jurisdiction, and the reported counts equal the number of resolvable
records (unresolvable ones are dropped, not written). -/
theorem reconciler_referential_integrity (today : String) (st : RunSt)
    (s : Store) (p : Payload) (st' : RunSt) (s' : Store) (j0 : JurisdictionRow)
    (rest : List JurisdictionRow)
    (hx : st.extracted_data = some (.dict p))
    (hj : s.jurisdictions.filter (fun j => strContainsCI j.county st.county_name) =
      j0 :: rest)
    (hp : persist_to_supabase today st s = .ok (st', s')) :
    (∀ row ∈ s'.zone_standards, row ∈ s.zone_standards ∨
       ∃ d ∈ s'.zoning_districts,
         d.id = row.zoning_district_id ∧ d.jurisdiction_id = j0.id) ∧
    (∀ row ∈ s'.permitted_uses, row ∈ s.permitted_uses ∨
       ∃ d ∈ s'.zoning_districts,
         d.id = row.zoning_district_id ∧ d.jurisdiction_id = j0.id) ∧
    (∃ s1d, districtStage j0.id p s = .ok s1d ∧
       st'.standards_upserted =
         (standardRecs (persistPairs j0.id s1d.1 s1d.2) p).length ∧
       st'.uses_upserted =
         (useRecs (persistPairs j0.id s1d.1 s1d.2) p).length) := by
  unfold persist_to_supabase at hp
  rw [hx] at hp
  dsimp only at hp
  rw [hj] at hp
  dsimp only at hp
  cases hds : districtStage j0.id p s with
  | error e => rw [hds] at hp; simp at hp
  | ok s1d =>
    rw [hds] at hp
    dsimp only at hp
    obtain ⟨hstd, huse, -, -⟩ := districtStage_other j0.id p s s1d hds
    have hcounts := persistTail_counts hp
    have hdists := persistTail_districts hp
    refine ⟨?_, ?_, s1d, rfl, hcounts.1, hcounts.2⟩
    · intro row hrow
      rcases persistTail_standards_mem hp row hrow with hold | hnew
      · exact Or.inl (hstd ▸ hold)
      · obtain ⟨c, hget⟩ := standardRecs_mem _ p row hnew
        obtain ⟨d, hd, hdid, hdjid⟩ := persistPairs_resolves j0.id s1d.1 s1d.2 c _ hget
        exact Or.inr ⟨d, hdists.symm ▸ hd, hdid, hdjid⟩
    · intro row hrow
      rcases persistTail_uses_mem hp row hrow with hold | hnew
      · exact Or.inl (huse ▸ hold)
      · obtain ⟨c, hget⟩ := useRecs_mem _ p row hnew
        obtain ⟨d, hd, hdid, hdjid⟩ := persistPairs_resolves j0.id s1d.1 s1d.2 c _ hget
        exact Or.inr ⟨d, hdists.symm ▸ hd, hdid, hdjid⟩


/-- The reconciler applied to the worked example (state component). -/
def c4St : RunSt :=
  match persist_to_supabase "2026-10-12" orphanSt brevardStore with
  | .ok pr => pr.1
  | .error _ => orphanSt

/-- The reconciler applied to the worked example (store component). -/
def c4Store : Store :=
  match persist_to_supabase "2026-10-12" orphanSt brevardStore with
  | .ok pr => pr.2
  | .error _ => brevardStore

/-- Witness for C4: the worked example against the Brevard store (one
resolvable standard written, the `ZZZ` standard dropped). -/
theorem reconciler_referential_integrity_witness :
    (persist_to_supabase "2026-10-12" orphanSt brevardStore = .ok (c4St, c4Store)) ∧
    (∀ row ∈ c4Store.zone_standards, row ∈ brevardStore.zone_standards ∨
       ∃ d ∈ c4Store.zoning_districts,
         d.id = row.zoning_district_id ∧
         d.jurisdiction_id = (⟨1, "Brevard County", "Brevard", 50, none⟩ : JurisdictionRow).id) ∧
    (∀ row ∈ c4Store.permitted_uses, row ∈ brevardStore.permitted_uses ∨
       ∃ d ∈ c4Store.zoning_districts,
         d.id = row.zoning_district_id ∧
         d.jurisdiction_id = (⟨1, "Brevard County", "Brevard", 50, none⟩ : JurisdictionRow).id) ∧
    (∃ s1d, districtStage 1 happyPayload brevardStore = .ok s1d ∧
       c4St.standards_upserted =
         (standardRecs (persistPairs 1 s1d.1 s1d.2) happyPayload).length ∧
       c4St.uses_upserted =
         (useRecs (persistPairs 1 s1d.1 s1d.2) happyPayload).length) := by
  have h := reconciler_referential_integrity "2026-10-12" orphanSt brevardStore
    happyPayload c4St c4Store ⟨1, "Brevard County", "Brevard", 50, none⟩ []
    rfl (by decide) rfl
  exact ⟨rfl, h.1, h.2.1, h.2.2⟩

/-! ## C5 — idempotence of the pipeline on the three entity tables -/

theorem replaceByKey_keyMap {α κ : Type} [DecidableEq κ] (k : α → κ) (r : α)
    (l : List α) : (replaceByKey k r l).map k = l.map k := by
  induction l with
  | nil => rfl
  | cons x t ih =>
    unfold replaceByKey
    split
    · rename_i hx
      simp only [List.map_cons]
      rw [show k r = k x from (beq_iff_eq.1 hx).symm]
    · simp only [List.map_cons, ih]

theorem any_key_eq {α κ : Type} [DecidableEq κ] (k : α → κ) (l l' : List α)
    (h : l.map k = l'.map k) (c : κ) :
    (l.any fun x => k x == c) = (l'.any fun x => k x == c) := by
  have e1 : ∀ m : List α, (m.any fun x => k x == c) =
      (m.map k).any (fun kk => kk == c) := by
    intro m
    induction m with
    | nil => rfl
    | cons x t ihm => simp [List.any_cons, ihm]
  rw [e1, e1, h]

theorem upsertList_keyMap_of_keys {α κ : Type} [DecidableEq κ] (k : α → κ)
    (l rs : List α) (h : ∀ r ∈ rs, (l.any fun x => k x == k r) = true) :
    (upsertList k l rs).map k = l.map k := by
  induction rs generalizing l with
  | nil => rfl
  | cons r t ih =>
    unfold upsertList at ih ⊢
    rw [List.foldl_cons]
    have hr := h r (List.mem_cons_self r t)
    rw [if_pos hr]
    have hmap := replaceByKey_keyMap k r l
    have ht : ∀ r' ∈ t, ((replaceByKey k r l).any fun x => k x == k r') = true := by
      intro r' hr'
      rw [any_key_eq k _ l hmap (k r')]
      exact h r' (List.mem_cons_of_mem r hr')
    exact (ih _ ht).trans hmap

theorem upsertList_length_of_keys {α κ : Type} [DecidableEq κ] (k : α → κ)
    (l rs : List α) (h : ∀ r ∈ rs, (l.any fun x => k x == k r) = true) :
    (upsertList k l rs).length = l.length := by
  have := congrArg List.length (upsertList_keyMap_of_keys k l rs h)
  simpa using this

theorem upsertStep_any {α κ : Type} [DecidableEq κ] (k : α → κ) (l : List α)
    (r : α) (c : κ) (h : (l.any fun x => k x == c) = true) :
    ((if l.any (fun x => k x == k r) then replaceByKey k r l else l ++ [r]).any
        fun x => k x == c) = true := by
  split
  · rw [any_key_eq k _ l (replaceByKey_keyMap k r l) c]
    exact h
  · rw [List.any_append]
    simp [h]

theorem upsertStep_self {α κ : Type} [DecidableEq κ] (k : α → κ) (l : List α)
    (r : α) :
    ((if l.any (fun x => k x == k r) then replaceByKey k r l else l ++ [r]).any
        fun x => k x == k r) = true := by
  split
  · rename_i hc
    rw [any_key_eq k _ l (replaceByKey_keyMap k r l) (k r)]
    exact hc
  · rw [List.any_append]
    simp

theorem upsertList_preserves_any {α κ : Type} [DecidableEq κ] (k : α → κ)
    (l rs : List α) (c : κ) (h : (l.any fun x => k x == c) = true) :
    ((upsertList k l rs).any fun x => k x == c) = true := by
  induction rs generalizing l with
  | nil => exact h
  | cons r t ih =>
    unfold upsertList at ih ⊢
    rw [List.foldl_cons]
    exact ih _ (upsertStep_any k l r c h)

theorem upsertList_establishes {α κ : Type} [DecidableEq κ] (k : α → κ)
    (l rs : List α) : ∀ r ∈ rs, ((upsertList k l rs).any fun x => k x == k r) = true := by
  induction rs generalizing l with
  | nil => intro r hr; simp at hr
  | cons r0 t ih =>
    intro r hr
    unfold upsertList
    rw [List.foldl_cons]
    rcases List.mem_cons.1 hr with h1 | h1
    · subst h1
      exact upsertList_preserves_any k _ t (k r) (upsertStep_self k l r)
    · exact ih _ r h1

/-- The projection of a district row that keyed upserts never change. -/
def dkey (d : DistrictRow) : Nat × Nat × String := (d.id, d.jurisdiction_id, d.code)

theorem replaceDistrict_dkey (r : DistrictRec) (l : List DistrictRow) :
    (replaceDistrict r l).map dkey = l.map dkey := by
  induction l with
  | nil => rfl
  | cons d t ih =>
    unfold replaceDistrict
    split
    · rename_i hx
      unfold districtKeyMatch at hx
      rw [Bool.and_eq_true] at hx
      simp only [List.map_cons]
      unfold dkey
      rw [show r.jurisdiction_id = d.jurisdiction_id from (beq_iff_eq.1 hx.1).symm,
          show r.code = d.code from (beq_iff_eq.1 hx.2).symm]
    · simp only [List.map_cons, ih]

theorem district_any_eq (l l' : List DistrictRow)
    (h : l.map dkey = l'.map dkey) (r : DistrictRec) :
    l.any (districtKeyMatch r) = l'.any (districtKeyMatch r) := by
  have e1 : ∀ m : List DistrictRow, m.any (districtKeyMatch r) =
      (m.map dkey).any (fun kk => kk.2.1 == r.jurisdiction_id && kk.2.2 == r.code) := by
    intro m
    induction m with
    | nil => rfl
    | cons x t ihm => simp [List.any_cons, ihm, districtKeyMatch, dkey]
  rw [e1, e1, h]

theorem upsertDistrict1_preserves_any (s : Store) (r' r : DistrictRec)
    (h : s.zoning_districts.any (districtKeyMatch r) = true) :
    (upsertDistrict1 s r').zoning_districts.any (districtKeyMatch r) = true := by
  unfold upsertDistrict1
  split
  · rw [district_any_eq _ _ (replaceDistrict_dkey r' s.zoning_districts) r]
    exact h
  · rw [List.any_append]
    simp [h]

theorem upsertDistrict1_self (s : Store) (r : DistrictRec) :
    (upsertDistrict1 s r).zoning_districts.any (districtKeyMatch r) = true := by
  unfold upsertDistrict1
  split
  · rename_i hc
    rw [district_any_eq _ _ (replaceDistrict_dkey r s.zoning_districts) r]
    exact hc
  · rw [List.any_append]
    simp [districtKeyMatch]

theorem upsertDistricts_preserves_any (s : Store) (rs : List DistrictRec)
    (r : DistrictRec) (h : s.zoning_districts.any (districtKeyMatch r) = true) :
    (upsertDistricts s rs).zoning_districts.any (districtKeyMatch r) = true := by
  induction rs generalizing s with
  | nil => exact h
  | cons r0 t ih =>
    unfold upsertDistricts at ih ⊢
    rw [List.foldl_cons]
    exact ih _ (upsertDistrict1_preserves_any s r0 r h)

theorem upsertDistricts_establishes (s : Store) (rs : List DistrictRec) :
    ∀ r ∈ rs, (upsertDistricts s rs).zoning_districts.any (districtKeyMatch r) = true := by
  induction rs generalizing s with
  | nil => intro r hr; simp at hr
  | cons r0 t ih =>
    intro r hr
    unfold upsertDistricts
    rw [List.foldl_cons]
    rcases List.mem_cons.1 hr with h1 | h1
    · subst h1
      exact upsertDistricts_preserves_any _ t r (upsertDistrict1_self s r)
    · exact ih _ r h1

theorem upsertDistricts_dkey_of_keys (s : Store) (rs : List DistrictRec)
    (h : ∀ r ∈ rs, s.zoning_districts.any (districtKeyMatch r) = true) :
    (upsertDistricts s rs).zoning_districts.map dkey = s.zoning_districts.map dkey ∧
    (upsertDistricts s rs).nextId = s.nextId := by
  induction rs generalizing s with
  | nil => exact ⟨rfl, rfl⟩
  | cons r t ih =>
    unfold upsertDistricts at ih ⊢
    rw [List.foldl_cons]
    have hr := h r (List.mem_cons_self r t)
    have hstep : upsertDistrict1 s r =
        { s with zoning_districts := replaceDistrict r s.zoning_districts } := by
      unfold upsertDistrict1
      rw [if_pos hr]
    rw [hstep]
    have hmap : (replaceDistrict r s.zoning_districts).map dkey =
        s.zoning_districts.map dkey := replaceDistrict_dkey r s.zoning_districts
    have ht : ∀ r' ∈ t,
        ({ s with zoning_districts := replaceDistrict r s.zoning_districts } :
          Store).zoning_districts.any (districtKeyMatch r') = true := by
      intro r' hr'
      rw [show ({ s with zoning_districts := replaceDistrict r s.zoning_districts } :
            Store).zoning_districts = replaceDistrict r s.zoning_districts from rfl]
      rw [district_any_eq _ _ hmap r']
      exact h r' (List.mem_cons_of_mem r hr')
    obtain ⟨m1, m2⟩ := ih _ ht
    exact ⟨m1.trans hmap, m2⟩

theorem districtPairs_eq_of_dkey (l l' : List DistrictRow)
    (h : l.map dkey = l'.map dkey) (jid : Nat) :
    districtPairs l jid = districtPairs l' jid := by
  have e : ∀ m : List DistrictRow, districtPairs m jid =
      (m.map dkey).filterMap
        (fun kk => if kk.2.1 == jid then some (kk.2.2, kk.1) else none) := by
    intro m
    induction m with
    | nil => rfl
    | cons d t ihm =>
      unfold districtPairs at ihm ⊢
      by_cases hc : d.jurisdiction_id = jid <;>
        simp [List.filter_cons, List.filterMap_cons, hc, dkey, ihm]
  rw [e, e, h]

theorem persistPairs_eq_of_dkey (jid : Nat) (sa sb : Store) (n : Nat)
    (h : sa.zoning_districts.map dkey = sb.zoning_districts.map dkey) :
    persistPairs jid sa n = persistPairs jid sb n := by
  unfold persistPairs
  split
  · exact districtPairs_eq_of_dkey _ _ h jid
  · rfl

theorem gStamp_fields (today county : String) (j : JurisdictionRow) :
    (gStamp today county j).id = j.id ∧ (gStamp today county j).county = j.county := by
  unfold gStamp
  split <;> exact ⟨rfl, rfl⟩

theorem stdStage_fields (s1 : Store) (srecs : List StandardRow) :
    (stdStage s1 srecs).1.zoning_districts = s1.zoning_districts ∧
    (stdStage s1 srecs).1.permitted_uses = s1.permitted_uses ∧
    (stdStage s1 srecs).1.jurisdictions = s1.jurisdictions := by
  unfold stdStage
  split <;> exact ⟨rfl, rfl, rfl⟩

theorem useStage_fields (s2 : Store) (urecs : List UseRow) :
    (useStage s2 urecs).1.zoning_districts = s2.zoning_districts ∧
    (useStage s2 urecs).1.zone_standards = s2.zone_standards ∧
    (useStage s2 urecs).1.jurisdictions = s2.jurisdictions := by
  unfold useStage
  split <;> exact ⟨rfl, rfl, rfl⟩

theorem stdStage_standards (s1 : Store) (srecs : List StandardRow) :
    (stdStage s1 srecs).1.zone_standards =
      (if srecs.isEmpty then s1.zone_standards
       else upsertList standardKey s1.zone_standards srecs) := by
  unfold stdStage
  split <;> rename_i hemp <;> simp [hemp, upsertStandards]

theorem useStage_uses (s2 : Store) (urecs : List UseRow) :
    (useStage s2 urecs).1.permitted_uses =
      (if urecs.isEmpty then s2.permitted_uses
       else upsertList useKey s2.permitted_uses urecs) := by
  unfold useStage
  split <;> rename_i hemp <;> simp [hemp, upsertUses]

/-- Eliminate a successful `persistTail` into its stage equations. -/
theorem persistTail_parts {today : String} {st : RunSt} {jid : Nat}
    {p : Payload} {s1 : Store} {dUp : Nat} {pr : RunSt × Store}
    (h : persistTail today st jid p s1 dUp = .ok pr) :
    ∃ srecs urecs,
      stdRecsE (persistPairs jid s1 dUp) p = .ok srecs ∧
      useRecsE (persistPairs jid s1 dUp) p = .ok urecs ∧
      standardRecs (persistPairs jid s1 dUp) p = srecs ∧
      useRecs (persistPairs jid s1 dUp) p = urecs ∧
      pr.2 = stampJurisdictions today st.county_name
        (useStage (stdStage s1 srecs).1 urecs).1 := by
  unfold persistTail at h
  split at h
  · simp at h
  · rename_i srecs hs
    split at h
    · simp at h
    · rename_i urecs hu
      cases h
      refine ⟨srecs, urecs, hs, hu, ?_, ?_, rfl⟩
      · unfold standardRecs; rw [hs]
      · unfold useRecs; rw [hu]

theorem stampJurisdictions_other (today county : String) (s3 : Store) :
    (stampJurisdictions today county s3).zoning_districts = s3.zoning_districts ∧
    (stampJurisdictions today county s3).zone_standards = s3.zone_standards ∧
    (stampJurisdictions today county s3).permitted_uses = s3.permitted_uses :=
  ⟨rfl, rfl, rfl⟩

theorem persistTail_standards_eq {today : String} {st : RunSt} {jid : Nat}
    {p : Payload} {s1 : Store} {dUp : Nat} {pr : RunSt × Store}
    (h : persistTail today st jid p s1 dUp = .ok pr) :
    pr.2.zone_standards =
      (stdStage s1 (standardRecs (persistPairs jid s1 dUp) p)).1.zone_standards := by
  obtain ⟨srecs, urecs, hs, hu, hsr, hur, hpr⟩ := persistTail_parts h
  rw [hpr, hsr, (stampJurisdictions_other today st.county_name _).2.1,
      (useStage_fields _ _).2.1]

theorem persistTail_uses_eq {today : String} {st : RunSt} {jid : Nat}
    {p : Payload} {s1 : Store} {dUp : Nat} {pr : RunSt × Store}
    (h : persistTail today st jid p s1 dUp = .ok pr) :
    pr.2.permitted_uses =
      (useStage (stdStage s1 (standardRecs (persistPairs jid s1 dUp) p)).1
        (useRecs (persistPairs jid s1 dUp) p)).1.permitted_uses := by
  obtain ⟨srecs, urecs, hs, hu, hsr, hur, hpr⟩ := persistTail_parts h
  rw [hpr, hsr, hur, (stampJurisdictions_other today st.county_name _).2.2]

theorem persistTail_jurisdictions {today : String} {st : RunSt} {jid : Nat}
    {p : Payload} {s1 : Store} {dUp : Nat} {pr : RunSt × Store}
    (h : persistTail today st jid p s1 dUp = .ok pr) :
    pr.2.jurisdictions = s1.jurisdictions.map (gStamp today st.county_name) := by
  obtain ⟨srecs, urecs, hs, hu, hsr, hur, hpr⟩ := persistTail_parts h
  rw [hpr]
  unfold stampJurisdictions
  dsimp only
  rw [(useStage_fields _ _).2.2, (stdStage_fields _ _).2.2]

theorem stdRecsE_nil (p : Payload) : stdRecsE [] p = .ok [] := by
  unfold stdRecsE
  simp

theorem useRecsE_nil (p : Payload) : useRecsE [] p = .ok [] := by
  unfold useRecsE
  simp

theorem standardRecs_nil (p : Payload) : standardRecs [] p = [] := by
  unfold standardRecs
  rw [stdRecsE_nil]

theorem useRecs_nil (p : Payload) : useRecs [] p = [] := by
  unfold useRecs
  rw [useRecsE_nil]

theorem persistTail_zero (today : String) (st : RunSt) (jid : Nat) (p : Payload)
    (s0 : Store) :
    persistTail today st jid p s0 0 =
      .ok ({ st with
               districts_upserted := 0
               standards_upserted := 0
               uses_upserted := 0 },
           stampJurisdictions today st.county_name s0) := by
  unfold persistTail
  rw [show persistPairs jid s0 0 = [] from rfl, stdRecsE_nil, useRecsE_nil]
  rfl

/-- The jurisdiction rows after the reconciler are the timestamp-mapped
originals, so the county filter re-resolves to the (mapped) same rows. -/
theorem filter_gStamp (today county : String) (l : List JurisdictionRow) :
    (l.map (gStamp today county)).filter (fun j => strContainsCI j.county county) =
      (l.filter (fun j => strContainsCI j.county county)).map (gStamp today county) := by
  rw [List.filter_map (gStamp today county) l]
  congr 1
  apply List.filter_congr
  intro j _
  show strContainsCI (gStamp today county j).county county = strContainsCI j.county county
  rw [(gStamp_fields today county j).2]

/-- Re-running the district stage against any store: the records depend
only on the payload, so the stage upserts the same records again. -/
theorem districtStage_again (jid : Nat) (p : Payload) (X : Store)
    (items : List (JItem DistrictEntry)) (drecs : List DistrictRec)
    (hdt : p.districts = JField.arr items)
    (hde : ¬p.districts.truthy = false)
    (hbr : buildDistrictRecords jid items = .ok drecs) :
    districtStage jid p X = .ok (upsertDistricts X drecs, drecs.length) := by
  unfold districtStage
  rw [if_neg hde, hdt]
  dsimp only
  rw [hbr]

/-- Re-running the reconciler with the same state against its own output
store succeeds and leaves the three entity tables at the same sizes. -/
theorem persist_idem (today : String) (st : RunSt) (s : Store) (pr : RunSt × Store)
    (h : persist_to_supabase today st s = .ok pr) :
    ∃ pr', persist_to_supabase today st pr.2 = .ok pr' ∧
      pr'.2.zoning_districts.length = pr.2.zoning_districts.length ∧
      pr'.2.zone_standards.length = pr.2.zone_standards.length ∧
      pr'.2.permitted_uses.length = pr.2.permitted_uses.length := by
  cases hx : st.extracted_data with
  | none =>
    unfold persist_to_supabase at h ⊢
    rw [hx] at h ⊢
    dsimp only at h
    injection h with h2
    subst h2
    exact ⟨(st, s), rfl, rfl, rfl, rfl⟩
  | some j =>
    cases j with
    | nonDict =>
      unfold persist_to_supabase at h
      rw [hx] at h
      simp at h
    | dict p =>
      unfold persist_to_supabase at h ⊢
      rw [hx] at h ⊢
      dsimp only at h ⊢
      cases hj : s.jurisdictions.filter (fun j => strContainsCI j.county st.county_name) with
      | nil =>
        rw [hj] at h
        dsimp only at h
        injection h with h2
        subst h2
        rw [show ({ st with errors := st.errors ++ ["persist_no_jurisdictions"] }, s).2 = s
              from rfl, hj]
        exact ⟨_, rfl, rfl, rfl, rfl⟩
      | cons j0 rest =>
        rw [hj] at h
        dsimp only at h
        cases hds : districtStage j0.id p s with
        | error e => rw [hds] at h; simp at h
        | ok s1d =>
          rw [hds] at h
          dsimp only at h
          unfold districtStage at hds
          split at hds
          · -- no districts in the payload: the stage returned (s, 0)
            rename_i hde
            injection hds with h3
            subst h3
            dsimp only at h
            rw [persistTail_zero] at h
            injection h with h2
            subst h2
            dsimp only
            have hfil2 : (stampJurisdictions today st.county_name s).jurisdictions.filter
                (fun j => strContainsCI j.county st.county_name) =
                gStamp today st.county_name j0 ::
                  rest.map (gStamp today st.county_name) := by
              unfold stampJurisdictions
              dsimp only
              rw [filter_gStamp, hj]
              rfl
            rw [hfil2]
            dsimp only
            rw [show (gStamp today st.county_name j0).id = j0.id from
                  (gStamp_fields today st.county_name j0).1]
            unfold districtStage
            rw [if_pos hde]
            dsimp only
            rw [persistTail_zero]
            exact ⟨_, rfl, rfl, rfl, rfl⟩
          · -- districts present: the stage upserted `drecs`
            rename_i hde
            cases hdt : p.districts with
            | nonArr tt ll => rw [hdt] at hds; simp at hds
            | arr items =>
              rw [hdt] at hds
              dsimp only at hds
              cases hbr : buildDistrictRecords j0.id items with
              | error e => rw [hbr] at hds; simp at hds
              | ok drecs =>
                rw [hbr] at hds
                dsimp only at hds
                injection hds with h3
                subst h3
                dsimp only at h
                obtain ⟨srecs, urecs, hsE, huE, hsr, hur, hpr⟩ := persistTail_parts h
                have hTd : pr.2.zoning_districts =
                    (upsertDistricts s drecs).zoning_districts := persistTail_districts h
                have hfil2 : pr.2.jurisdictions.filter
                    (fun j => strContainsCI j.county st.county_name) =
                    gStamp today st.county_name j0 ::
                      rest.map (gStamp today st.county_name) := by
                  rw [persistTail_jurisdictions h,
                      (upsertDistricts_other s drecs).2.2.1, filter_gStamp, hj]
                  rfl
                rw [hfil2]
                dsimp only
                rw [show (gStamp today st.county_name j0).id = j0.id from
                      (gStamp_fields today st.county_name j0).1]
                rw [districtStage_again j0.id p pr.2 items drecs hdt hde hbr]
                dsimp only
                have hkeys : ∀ r ∈ drecs,
                    (pr.2.zoning_districts.any (districtKeyMatch r)) = true := by
                  intro r hr
                  rw [hTd]
                  exact upsertDistricts_establishes s drecs r hr
                have hmap := (upsertDistricts_dkey_of_keys pr.2 drecs hkeys).1
                have hpairs : persistPairs j0.id (upsertDistricts pr.2 drecs)
                    drecs.length =
                    persistPairs j0.id (upsertDistricts s drecs) drecs.length :=
                  persistPairs_eq_of_dkey j0.id _ _ drecs.length (by rw [hmap, hTd])
                have h2nd : persistTail today st j0.id p (upsertDistricts pr.2 drecs)
                    drecs.length =
                    .ok ({ st with
                             districts_upserted := drecs.length
                             standards_upserted :=
                               (stdStage (upsertDistricts pr.2 drecs) srecs).2
                             uses_upserted :=
                               (useStage (stdStage (upsertDistricts pr.2 drecs)
                                 srecs).1 urecs).2 },
                         stampJurisdictions today st.county_name
                           (useStage (stdStage (upsertDistricts pr.2 drecs)
                             srecs).1 urecs).1) := by
                  unfold persistTail
                  rw [hpairs, hsE, huE]
                rw [h2nd]
                have hT2s : pr.2.zone_standards =
                    (stdStage (upsertDistricts s drecs) srecs).1.zone_standards := by
                  rw [hpr, (stampJurisdictions_other today st.county_name _).2.1,
                      (useStage_fields _ _).2.1]
                have hT2u : pr.2.permitted_uses =
                    (useStage (stdStage (upsertDistricts s drecs) srecs).1
                      urecs).1.permitted_uses := by
                  rw [hpr, (stampJurisdictions_other today st.county_name _).2.2]
                refine ⟨_, rfl, ?_, ?_, ?_⟩
                · rw [(stampJurisdictions_other today st.county_name _).1,
                      (useStage_fields _ _).1, (stdStage_fields _ _).1]
                  have := congrArg List.length hmap
                  simpa using this
                · rw [(stampJurisdictions_other today st.county_name _).2.1,
                      (useStage_fields _ _).2.1, stdStage_standards,
                      (upsertDistricts_other pr.2 drecs).1]
                  by_cases hse : srecs.isEmpty = true
                  · rw [if_pos hse]
                  · rw [if_neg hse]
                    have hT2L : pr.2.zone_standards = upsertList standardKey
                        (upsertDistricts s drecs).zone_standards srecs := by
                      rw [hT2s, stdStage_standards, if_neg hse]
                    refine upsertList_length_of_keys standardKey _ _ ?_
                    intro r hr
                    rw [hT2L]
                    exact upsertList_establishes standardKey
                      (upsertDistricts s drecs).zone_standards srecs r hr
                · rw [(stampJurisdictions_other today st.county_name _).2.2,
                      useStage_uses, (stdStage_fields _ _).2.1,
                      (upsertDistricts_other pr.2 drecs).2.1]
                  by_cases hue : urecs.isEmpty = true
                  · rw [if_pos hue]
                  · rw [if_neg hue]
                    have hT2U : pr.2.permitted_uses = upsertList useKey
                        (upsertDistricts s drecs).permitted_uses urecs := by
                      rw [hT2u, useStage_uses, if_neg hue, (stdStage_fields _ _).2.1]
                    refine upsertList_length_of_keys useKey _ _ ?_
                    intro r hr
                    rw [hT2U]
                    exact upsertList_establishes useKey
                      (upsertDistricts s drecs).permitted_uses urecs r hr

/-- Re-running the reconciler after a raise, against the store the raise
left behind, raises again and leaves the three entity tables at the same
sizes. -/
theorem persist_idem_err (today : String) (st : RunSt) (s : Store)
    (es : PyErr × Store) (h : persist_to_supabase today st s = .error es) :
    ∃ es', persist_to_supabase today st es.2 = .error es' ∧
      es'.2.zoning_districts.length = es.2.zoning_districts.length ∧
      es'.2.zone_standards.length = es.2.zone_standards.length ∧
      es'.2.permitted_uses.length = es.2.permitted_uses.length := by
  have hcase := h
  unfold persist_to_supabase at hcase
  split at hcase
  · simp at hcase
  · -- non-dict payload: the raise left the store untouched
    injection hcase with h2
    subst h2
    exact ⟨_, h, rfl, rfl, rfl⟩
  · rename_i p hxd
    split at hcase
    · simp at hcase
    · rename_i j0 rest hj
      split at hcase
      · -- raise while building the district records: store untouched
        injection hcase with h2
        subst h2
        exact ⟨_, h, rfl, rfl, rfl⟩
      · rename_i s1d hds
        unfold districtStage at hds
        split at hds
        · -- no districts: the tail cannot raise
          injection hds with h3
          subst h3
          dsimp only at hcase
          rw [persistTail_zero] at hcase
          simp at hcase
        · rename_i hde
          cases hdt : p.districts with
          | nonArr tt ll => rw [hdt] at hds; simp at hds
          | arr items =>
            rw [hdt] at hds
            dsimp only at hds
            cases hbr : buildDistrictRecords j0.id items with
            | error e => rw [hbr] at hds; simp at hds
            | ok drecs =>
              rw [hbr] at hds
              dsimp only at hds
              injection hds with h3
              subst h3
              dsimp only at hcase
              unfold persistTail at hcase
              split at hcase
              · -- the raise came from the standards loop, store = districts upserted
                rename_i e1 hsE
                injection hcase with h2
                subst h2
                dsimp only
                unfold persist_to_supabase
                rw [hxd]
                dsimp only
                have hfil : (upsertDistricts s drecs).jurisdictions.filter
                    (fun j => strContainsCI j.county st.county_name) = j0 :: rest := by
                  rw [(upsertDistricts_other s drecs).2.2.1]
                  exact hj
                rw [hfil]
                dsimp only
                rw [districtStage_again j0.id p (upsertDistricts s drecs) items drecs
                      hdt hde hbr]
                dsimp only
                have hkeys : ∀ r ∈ drecs,
                    ((upsertDistricts s drecs).zoning_districts.any
                      (districtKeyMatch r)) = true := fun r hr =>
                  upsertDistricts_establishes s drecs r hr
                have hmap := (upsertDistricts_dkey_of_keys
                  (upsertDistricts s drecs) drecs hkeys).1
                have hpairs : persistPairs j0.id
                    (upsertDistricts (upsertDistricts s drecs) drecs) drecs.length =
                    persistPairs j0.id (upsertDistricts s drecs) drecs.length :=
                  persistPairs_eq_of_dkey j0.id _ _ drecs.length hmap
                unfold persistTail
                rw [hpairs, hsE]
                refine ⟨_, rfl, ?_, ?_, ?_⟩
                · have := congrArg List.length hmap
                  simpa using this
                · rw [(upsertDistricts_other (upsertDistricts s drecs) drecs).1]
                · rw [(upsertDistricts_other (upsertDistricts s drecs) drecs).2.1]
              · -- the raise came from the uses loop, standards already upserted
                rename_i srecs hsE
                split at hcase
                · rename_i e1 huE
                  injection hcase with h2
                  subst h2
                  dsimp only
                  unfold persist_to_supabase
                  rw [hxd]
                  dsimp only
                  have hfil : (stdStage (upsertDistricts s drecs) srecs).1.jurisdictions.filter
                      (fun j => strContainsCI j.county st.county_name) = j0 :: rest := by
                    rw [(stdStage_fields _ _).2.2, (upsertDistricts_other s drecs).2.2.1]
                    exact hj
                  rw [hfil]
                  dsimp only
                  rw [districtStage_again j0.id p
                        (stdStage (upsertDistricts s drecs) srecs).1 items drecs
                        hdt hde hbr]
                  dsimp only
                  have hS2d : (stdStage (upsertDistricts s drecs) srecs).1.zoning_districts =
                      (upsertDistricts s drecs).zoning_districts := (stdStage_fields _ _).1
                  have hkeys : ∀ r ∈ drecs,
                      ((stdStage (upsertDistricts s drecs) srecs).1.zoning_districts.any
                        (districtKeyMatch r)) = true := by
                    intro r hr
                    rw [hS2d]
                    exact upsertDistricts_establishes s drecs r hr
                  have hmap := (upsertDistricts_dkey_of_keys
                    (stdStage (upsertDistricts s drecs) srecs).1 drecs hkeys).1
                  have hpairs : persistPairs j0.id
                      (upsertDistricts (stdStage (upsertDistricts s drecs) srecs).1 drecs)
                      drecs.length =
                      persistPairs j0.id (upsertDistricts s drecs) drecs.length :=
                    persistPairs_eq_of_dkey j0.id _ _ drecs.length (by rw [hmap, hS2d])
                  unfold persistTail
                  rw [hpairs, hsE, huE]
                  refine ⟨_, rfl, ?_, ?_, ?_⟩
                  · rw [(stdStage_fields _ _).1]
                    have := congrArg List.length hmap
                    simpa using this
                  · rw [stdStage_standards,
                        (upsertDistricts_other
                          (stdStage (upsertDistricts s drecs) srecs).1 drecs).1]
                    by_cases hse : srecs.isEmpty = true
                    · rw [if_pos hse]
                    · rw [if_neg hse]
                      refine upsertList_length_of_keys standardKey _ _ ?_
                      intro r hr
                      rw [show (stdStage (upsertDistricts s drecs) srecs).1.zone_standards =
                            upsertList standardKey
                              (upsertDistricts s drecs).zone_standards srecs from by
                            rw [stdStage_standards, if_neg hse]]
                      exact upsertList_establishes standardKey
                        (upsertDistricts s drecs).zone_standards srecs r hr
                  · rw [(stdStage_fields _ _).2.1,
                        (upsertDistricts_other
                          (stdStage (upsertDistricts s drecs) srecs).1 drecs).2.1]
                · simp at hcase

/-- C5: running the pipeline twice with identical extracted input (same
environment, same arguments) leaves the Districts, Standards and Uses
tables at exactly the sizes the first run produced: the second run's keyed
upserts merge into existing rows and create no duplicates. -/
theorem pipeline_idempotent (e : RunEnv) (a : RunArgs) (s : Store) :
    (run e a (run e a s).store).store.zoning_districts.length =
      (run e a s).store.zoning_districts.length ∧
    (run e a (run e a s).store).store.zone_standards.length =
      (run e a s).store.zone_standards.length ∧
    (run e a (run e a s).store).store.permitted_uses.length =
      (run e a s).store.permitted_uses.length := by
  cases h2 : hasDataCheck (afterMode2 e a).extracted_data with
  | error er =>
    rw [run_check1_err s h2]
    dsimp only
    rw [run_check1_err s h2]
    exact ⟨rfl, rfl, rfl⟩
  | ok hd =>
    cases h3 : hasDataCheck (afterMode3 e a).extracted_data with
    | error er =>
      rw [run_check2_err s h2 h3]
      dsimp only
      rw [run_check2_err s h2 h3]
      exact ⟨rfl, rfl, rfl⟩
    | ok fhd =>
      cases fhd
      · rw [run_escalates s h2 h3]
        dsimp only
        rw [run_escalates (escalate_to_insights (afterMode3 e a) s).2 h2 h3]
        exact ⟨rfl, rfl, rfl⟩
      · cases h4 : persist_to_supabase e.today (afterMode3 e a) s with
        | error es =>
          obtain ⟨es2, hp2, l1, l2, l3⟩ :=
            persist_idem_err e.today (afterMode3 e a) s es h4
          rw [run_persist_err s h2 h3 h4]
          dsimp only
          rw [run_persist_err es.2 h2 h3 hp2]
          exact ⟨l1, l2, l3⟩
        | ok pr =>
          obtain ⟨pr2, hp2, l1, l2, l3⟩ := persist_idem e.today (afterMode3 e a) s pr h4
          rw [run_persists s h2 h3 h4]
          dsimp only
          rw [run_persists pr.2 h2 h3 hp2]
          exact ⟨l1, l2, l3⟩

end ZoneWise








